import Mathlib

/-!
# ArmMpServicesAcpiPsci: a shallow embedding of the MP services

Embedding of `ArmPkg/Library/ArmMpServicesAcpiPsciLib/ArmMpServicesAcpiPsci.c`.

* Globals (`mMpProcessorInfo`, `mCpu`) and the observable actions of a service call
  are carried in an explicit `MpState`; actions are appended to `MpState.trace` in
  program order.
* Everything that the file only declares or calls (boot services, PSCI calls, the
  helpers of `ArmMpServicesInternal.h`, header constants) is a field of `Platform`.
* A service returns `none` when a failed `ASSERT` stops the core (DEBUG build), and
  `some (Status, state)` when it returns to its caller.
* `for (Index = 0; Index < NumberOfEntries; Index++)` loops are functions of the
  number of iterations still to run and the current `Index`.
-/

namespace ArmMpServices

/-- The status codes that the file returns or documents. -/
inductive EFI_STATUS
  | EFI_SUCCESS
  | EFI_INVALID_PARAMETER
  | EFI_UNSUPPORTED
  | EFI_NOT_READY
  | EFI_DEVICE_ERROR
  | EFI_OUT_OF_RESOURCES
  | EFI_NOT_FOUND
  | EFI_NOT_STARTED
  | EFI_TIMEOUT
  deriving DecidableEq, Repr

open EFI_STATUS

/-- The macro `EFI_ERROR (Status)`: every listed code but `EFI_SUCCESS` is an error. -/
def EFI_ERROR : EFI_STATUS → Bool
  | EFI_SUCCESS => false
  | _ => true

/-- An `EFI_EVENT` is a pointer; `NULL` is `0`. -/
abbrev EFI_EVENT := Nat

/-- One entry of the processor table: the hardware coordinate of a core. -/
structure ARM_CORE_INFO where
  ClusterId : Nat
  CoreId : Nat
  deriving DecidableEq, Repr

/-- The table `mArmProcessorTable`. `ArmCpus` is indexed without a bound, as the C
array is: `ArmCpus n` for `n ≥ NumberOfEntries` is whatever lies behind the table. -/
structure ARM_PROCESSOR_TABLE where
  NumberOfEntries : Nat
  ArmCpus : Nat → ARM_CORE_INFO

/-- One element of `mMpProcessorInfo`, with the two fields the file uses. -/
structure PROCESSOR_INFO where
  Mailbox : Nat
  CompletionEvent : EFI_EVENT
  deriving DecidableEq, Repr

/-- The field `Location` of `EFI_PROCESSOR_INFORMATION`. -/
structure EFI_CPU_PHYSICAL_LOCATION where
  Package : Nat
  Core : Nat
  Thread : Nat
  deriving DecidableEq, Repr

/-- What `MpGetProcessorInfo` deposits in `ProcessorInfoBuffer`. -/
structure EFI_PROCESSOR_INFORMATION where
  ProcessorId : Nat
  StatusFlag : Nat
  Location : EFI_CPU_PHYSICAL_LOCATION
  deriving DecidableEq, Repr

/-- Modelled from the spec: the answers of the power query (section 6,
`query(coordinate) -> {On, OnPending, Off, Other}`), the values that `ArmCallSmc`
leaves in `SmcArgs.Arg0` after an AFFINITY_INFO call; the constants
`ARM_SMC_ID_PSCI_AFFINITY_INFO_*` are declared outside this file. -/
inductive PSCI_AFFINITY_INFO
  | ON
  | ON_PENDING
  | OFF
  | OTHER
  deriving DecidableEq, Repr

/-- Modelled from the spec: the answers of the power-on call (section 6,
`powerOn(coordinate, entryAddress) -> {Success, AlreadyOn, Denied, Other}`), the
values that `ArmCallSmc` leaves in `SmcArgs.Arg0` after a CPU_ON call; the constants
`ARM_SMC_PSCI_RET_*` are declared outside this file. -/
inductive PSCI_RET
  | SUCCESS
  | ALREADY_ON
  | DENIED
  | OTHER
  deriving DecidableEq, Repr

/-- The observable actions of the services, in the words of the source. -/
inductive Effect
  /-- A call of `gBS->CreateEvent`; `Event` is what it stores when it succeeds. -/
  | CreateEvent (Event : EFI_EVENT)
  | SetProcedureToSecondaryCore (Index : Nat) (Event : EFI_EVENT)
  | ArmGicSendSgiTo
  | WaitForEvent (Event : EFI_EVENT)
  | CloseEvent (Event : EFI_EVENT)
  | SignalEvent (Event : EFI_EVENT)
  | AllocatePages (Memory : Nat)
  | FreePages (Memory : Nat)
  | CopyMem (Destination Source Length : Nat)
  | Write32 (Address Value : Nat)
  | Write64 (Address Value : Nat)
  | LocateProtocol
  | SetMemoryAttributes (BaseAddress Length : Nat)
  | CpuOn (ArmCpu : ARM_CORE_INFO) (EntryPoint : Nat)
  deriving DecidableEq, Repr

/-- What the file takes from its surroundings: the build configuration, the executing
core, the helpers and services it calls, and the header constants it uses. -/
structure Platform where
  /-- Whether `MDE_CPU_AARCH64` is defined: `UINTN` has 64 bits, otherwise 32. -/
  MDE_CPU_AARCH64 : Bool
  /-- Whether a failed `ASSERT` stops the core (DEBUG build) or is compiled out. -/
  DebugAssertEnabled : Bool
  /-- What `ArmReadMpidr ()` reads on the executing core. -/
  ArmReadMpidr : Nat
  /-- The macro `GET_CLUSTER_ID`. -/
  GET_CLUSTER_ID : Nat → Nat
  /-- The macro `GET_CORE_ID`. -/
  GET_CORE_ID : Nat → Nat
  /-- The helper `WaitForSecondaryToBeEnabled (ArmCpu)`. -/
  WaitForSecondaryToBeEnabled : ARM_CORE_INFO → EFI_STATUS
  /-- The helper `IsSecondaryCoreBusy (Index)`. -/
  IsSecondaryCoreBusy : Nat → Bool
  /-- The status of `SetProcedureToSecondaryCore (Index, .., Event)`. -/
  SetProcedureToSecondaryCore : Nat → EFI_EVENT → EFI_STATUS
  /-- The status of `gBS->CreateEvent` and the event it stores on success. -/
  CreateEvent : EFI_STATUS × EFI_EVENT
  /-- The status of `gBS->AllocatePages` and the address it stores on success. -/
  AllocatePages : EFI_STATUS × Nat
  /-- The status of `gBS->LocateProtocol` and the interface it stores on success. -/
  LocateProtocol : EFI_STATUS × Nat
  /-- The status of `mCpu->SetMemoryAttributes (mCpu, BaseAddress, ..)`. -/
  SetMemoryAttributes : Nat → EFI_STATUS
  /-- The answer of the PSCI AFFINITY_INFO call for a core. -/
  PsciAffinityInfo : ARM_CORE_INFO → PSCI_AFFINITY_INFO
  /-- The answer of the PSCI CPU_ON call for a core and an entry point. -/
  PsciCpuOn : ARM_CORE_INFO → Nat → PSCI_RET
  /-- The 32-bit value of `1 << Index` for `Index ≥ 32`, which C leaves undefined
  (`2 ^ (Index % 32)` on AArch64, `0` on AArch32). -/
  ShiftOutOfRange : Nat → Nat
  /-- The address of `MailboxCodeStart`. -/
  MailboxCodeStart : Nat
  /-- The address of `MailboxCodeEnd`. -/
  MailboxCodeEnd : Nat
  /-- The address of the variable `MailboxCodeStack`. -/
  MailboxCodeStack : Nat
  /-- The address of the variable `MailboxCodeProcessorIdOffset`. -/
  MailboxCodeProcessorIdOffset : Nat
  /-- The address of the variable `MailboxCodeJumpAddressOffset`. -/
  MailboxCodeJumpAddressOffset : Nat
  ACPI_ARM_MP_MAILBOX_SIZE : Nat
  ACPI_ARM_MP_MAILBOX_FW_SIZE : Nat
  ACPI_ARM_MP_MAILBOX_CPU_ID_OFFSET : Nat
  ACPI_ARM_MP_MAILBOX_JUMP_ADDR_OFFSET : Nat
  /-- The macro `GET_MPID (ClusterId, CoreId)`. -/
  GET_MPID : Nat → Nat → Nat
  PROCESSOR_AS_BSP_BIT : Nat
  PROCESSOR_ENABLED_BIT : Nat
  PROCESSOR_HEALTH_STATUS_BIT : Nat

/-- The globals of the file and the actions performed so far (oldest first). -/
structure MpState where
  mMpProcessorInfo : Nat → PROCESSOR_INFO
  /-- The pointer `mCpu`; `0` is `NULL`. -/
  mCpu : Nat
  trace : List Effect

/-- Append one action to the trace. -/
def MpState.emit (s : MpState) (e : Effect) : MpState :=
  { s with trace := s.trace ++ [e] }

/-- The assignment `mMpProcessorInfo[Index].CompletionEvent = Event`. -/
def MpState.setCompletionEvent (s : MpState) (Index : Nat) (Event : EFI_EVENT) : MpState :=
  { s with
    mMpProcessorInfo := Function.update s.mMpProcessorInfo Index
      ⟨(s.mMpProcessorInfo Index).Mailbox, Event⟩ }

/-- The assignment `mMpProcessorInfo[Index].Mailbox = Memory`. -/
def MpState.setMailbox (s : MpState) (Index : Nat) (Memory : Nat) : MpState :=
  { s with
    mMpProcessorInfo := Function.update s.mMpProcessorInfo Index
      ⟨Memory, (s.mMpProcessorInfo Index).CompletionEvent⟩ }

/-- The number of bits of `UINTN`. -/
def UINTN_BITS (P : Platform) : Nat := if P.MDE_CPU_AARCH64 then 64 else 32

/-- The cast `(UINTN)x`. -/
def toUINTN (P : Platform) (x : Nat) : Nat := x % 2 ^ UINTN_BITS P

/-- The macro `ASSERT (cond)`: `none` when it stops the core. -/
def ASSERT (P : Platform) (cond : Bool) : Option Unit :=
  if cond then some () else if P.DebugAssertEnabled then none else some ()

/-- The loop of `MpWhoAmI`: `some Index` when the loop returns at `Index`, `none` when
it runs to its end. -/
def MpWhoAmI.loop (T : ARM_PROCESSOR_TABLE) (ClusterId CoreId : Nat) : Nat → Nat → Option Nat
  | 0, _ => none
  | n + 1, Index =>
    if (T.ArmCpus Index).ClusterId = ClusterId ∧ (T.ArmCpus Index).CoreId = CoreId then
      some Index
    else
      MpWhoAmI.loop T ClusterId CoreId n (Index + 1)

/-- `MpWhoAmI (This, ProcessorNumber)`. The second component of the result is what was
stored through `ProcessorNumber` (`none`: nothing was stored). -/
def MpWhoAmI (P : Platform) (T : ARM_PROCESSOR_TABLE) (ProcessorNumberIsNull : Bool) :
    Option (EFI_STATUS × Option Nat) :=
  if ProcessorNumberIsNull then some (EFI_INVALID_PARAMETER, none)
  else
    let MpId := P.ArmReadMpidr
    let ClusterId := P.GET_CLUSTER_ID MpId
    let CoreId := P.GET_CORE_ID MpId
    match MpWhoAmI.loop T ClusterId CoreId T.NumberOfEntries 0 with
    | some Index => some (EFI_SUCCESS, some Index)
    | none =>
      match ASSERT P false with
      | none => none
      | some _ => some (EFI_INVALID_PARAMETER, none)

/-- The 32-bit value of the `int` expression `1 << Index`. -/
def Shl1 (P : Platform) (Index : Nat) : Nat :=
  if Index < 32 then 2 ^ Index else P.ShiftOutOfRange Index % 2 ^ 32

/-- The first loop of `MpStartupAllAPs` (busy check, set of enabled cores):
`.error EFI_NOT_READY` when it returns from the function, otherwise the final
`EnabledArmCpus` (a `UINT32`). -/
def MpStartupAllAPs.checkLoop (P : Platform) (T : ARM_PROCESSOR_TABLE) (IAm : Nat) :
    Nat → Nat → Nat → Except EFI_STATUS Nat
  | 0, _, EnabledArmCpus => .ok EnabledArmCpus
  | n + 1, Index, EnabledArmCpus =>
    if Index ≠ IAm then
      if EFI_ERROR (P.WaitForSecondaryToBeEnabled (T.ArmCpus Index)) then
        MpStartupAllAPs.checkLoop P T IAm n (Index + 1) EnabledArmCpus
      else if P.IsSecondaryCoreBusy Index then
        .error EFI_NOT_READY
      else
        MpStartupAllAPs.checkLoop P T IAm n (Index + 1)
          ((EnabledArmCpus ||| Shl1 P Index) % 2 ^ 32)
    else
      MpStartupAllAPs.checkLoop P T IAm n (Index + 1) EnabledArmCpus

/-- The dispatch loop of the `SingleThread` branch: `some Status` when it returns from
the function with `Status`. -/
def MpStartupAllAPs.singleThreadLoop (P : Platform) (EnabledArmCpus : Nat)
    (CompletionEvent : EFI_EVENT) : Nat → Nat → MpState → Option EFI_STATUS × MpState
  | 0, _, s => (none, s)
  | n + 1, Index, s =>
    if EnabledArmCpus &&& Shl1 P Index ≠ 0 then
      let s1 := s.emit (.SetProcedureToSecondaryCore Index CompletionEvent)
      let Status := P.SetProcedureToSecondaryCore Index CompletionEvent
      if EFI_ERROR Status then (some Status, s1)
      else
        let s2 := s1.emit .ArmGicSendSgiTo
        let s3 := s2.emit (.WaitForEvent CompletionEvent)
        MpStartupAllAPs.singleThreadLoop P EnabledArmCpus CompletionEvent n (Index + 1) s3
    else
      MpStartupAllAPs.singleThreadLoop P EnabledArmCpus CompletionEvent n (Index + 1) s

/-- The dispatch loop of the simultaneous branch: `some Status` when it returns from
the function with `Status`. -/
def MpStartupAllAPs.allLoop (P : Platform) (EnabledArmCpus : Nat)
    (Event : EFI_EVENT) : Nat → Nat → MpState → Option EFI_STATUS × MpState
  | 0, _, s => (none, s)
  | n + 1, Index, s =>
    if EnabledArmCpus &&& Shl1 P Index ≠ 0 then
      let s1 := s.emit (.SetProcedureToSecondaryCore Index Event)
      let Status := P.SetProcedureToSecondaryCore Index Event
      if EFI_ERROR Status then (some Status, s1)
      else MpStartupAllAPs.allLoop P EnabledArmCpus Event n (Index + 1) s1
    else
      MpStartupAllAPs.allLoop P EnabledArmCpus Event n (Index + 1) s

/-- The simultaneous branch of `MpStartupAllAPs` from its loop on; `Event` is `*Event`,
the created `CompletionEvent` or `WaitEvent`. -/
def MpStartupAllAPs.dispatchAll (P : Platform) (EnabledArmCpus NumberOfEntries : Nat)
    (WaitEvent Event : EFI_EVENT) (s : MpState) : EFI_STATUS × MpState :=
  match MpStartupAllAPs.allLoop P EnabledArmCpus Event NumberOfEntries 0 s with
  | (some Status, s1) => (Status, s1)
  | (none, s1) =>
    let s2 := s1.emit .ArmGicSendSgiTo
    if WaitEvent = 0 then (EFI_SUCCESS, s2.emit (.WaitForEvent Event))
    else (EFI_SUCCESS, s2)

/-- `MpStartupAllAPs (This, Procedure, SingleThread, WaitEvent, ..)`. -/
def MpStartupAllAPs (P : Platform) (T : ARM_PROCESSOR_TABLE) (s : MpState)
    (SingleThread : Bool) (WaitEvent : EFI_EVENT) : Option (EFI_STATUS × MpState) :=
  match MpWhoAmI P T false with
  | none => none
  | some (Status, none) => some (Status, s)
  | some (Status, some IAm) =>
    if EFI_ERROR Status then some (Status, s)
    else
      match MpStartupAllAPs.checkLoop P T IAm T.NumberOfEntries 0 0 with
      | .error Status => some (Status, s)
      | .ok EnabledArmCpus =>
        if EnabledArmCpus = 0 then some (EFI_NOT_STARTED, s)
        else if SingleThread then
          let s1 := s.emit (.CreateEvent P.CreateEvent.2)
          if EFI_ERROR P.CreateEvent.1 then some (P.CreateEvent.1, s1)
          else
            let CompletionEvent := P.CreateEvent.2
            match MpStartupAllAPs.singleThreadLoop P EnabledArmCpus CompletionEvent
                T.NumberOfEntries 0 s1 with
            | (some Status, s2) => some (Status, s2)
            | (none, s2) =>
              let s3 := s2.emit (.CloseEvent CompletionEvent)
              let s4 := if WaitEvent ≠ 0 then s3.emit (.SignalEvent WaitEvent) else s3
              some (EFI_SUCCESS, s4)
        else if WaitEvent = 0 then
          let s1 := s.emit (.CreateEvent P.CreateEvent.2)
          if EFI_ERROR P.CreateEvent.1 then some (P.CreateEvent.1, s1)
          else
            some (MpStartupAllAPs.dispatchAll P EnabledArmCpus T.NumberOfEntries WaitEvent
              P.CreateEvent.2 s1)
        else
          some (MpStartupAllAPs.dispatchAll P EnabledArmCpus T.NumberOfEntries WaitEvent
            WaitEvent s)

/-- `MpStartupThisAP` from the call of `SetProcedureToSecondaryCore` on. -/
def MpStartupThisAP.dispatch (P : Platform) (ProcessorNumber : Nat) (WaitEvent : EFI_EVENT)
    (s : MpState) : EFI_STATUS × MpState :=
  let s1 := s.emit (.SetProcedureToSecondaryCore ProcessorNumber WaitEvent)
  let Status := P.SetProcedureToSecondaryCore ProcessorNumber WaitEvent
  if EFI_ERROR Status then (Status, s1)
  else
    let s2 := s1.emit .ArmGicSendSgiTo
    if WaitEvent = 0 then
      let s3 := s2.emit (.WaitForEvent (s2.mMpProcessorInfo ProcessorNumber).CompletionEvent)
      (EFI_SUCCESS, s3.emit (.CloseEvent (s3.mMpProcessorInfo ProcessorNumber).CompletionEvent))
    else (EFI_SUCCESS, s2)

/-- `MpStartupThisAP (This, Procedure, ProcessorNumber, WaitEvent, ..)`. -/
def MpStartupThisAP (P : Platform) (T : ARM_PROCESSOR_TABLE) (s : MpState)
    (ProcessorNumber : Nat) (WaitEvent : EFI_EVENT) : Option (EFI_STATUS × MpState) :=
  if ProcessorNumber > T.NumberOfEntries then some (EFI_NOT_FOUND, s)
  else
    match MpWhoAmI P T false with
    | none => none
    | some (Status, none) => some (Status, s)
    | some (Status, some IAm) =>
      if EFI_ERROR Status then some (Status, s)
      else if IAm = ProcessorNumber then some (EFI_INVALID_PARAMETER, s)
      else
        let ArmCpu := T.ArmCpus ProcessorNumber
        if EFI_ERROR (P.WaitForSecondaryToBeEnabled ArmCpu) then some (EFI_DEVICE_ERROR, s)
        else if P.IsSecondaryCoreBusy ProcessorNumber then some (EFI_NOT_READY, s)
        else if WaitEvent ≠ 0 then
          some (MpStartupThisAP.dispatch P ProcessorNumber WaitEvent
            (s.setCompletionEvent ProcessorNumber WaitEvent))
        else
          let s1 := s.emit (.CreateEvent P.CreateEvent.2)
          if EFI_ERROR P.CreateEvent.1 then some (P.CreateEvent.1, s1)
          else
            some (MpStartupThisAP.dispatch P ProcessorNumber WaitEvent
              (s1.setCompletionEvent ProcessorNumber P.CreateEvent.2))

/-- `MpSwitchBSP (This, ProcessorNumber, EnableOldBSP)`. -/
def MpSwitchBSP (P : Platform) (ProcessorNumber : Nat) (EnableOldBSP : Bool) :
    Option EFI_STATUS :=
  match ASSERT P false with
  | none => none
  | some _ => some EFI_SUCCESS

/-- The address written by `PATCH_MAILBOX_DATA`:
`(UINTN)Mailbox + (UINTN)&(Variable) - (UINTN)MailboxCodeStart`, in `UINTN`. -/
def PatchAddress (P : Platform) (Mailbox Variable : Nat) : Nat :=
  toUINTN P (toUINTN P Mailbox + toUINTN P Variable
    + (2 ^ UINTN_BITS P - toUINTN P P.MailboxCodeStart))

/-- The three `PATCH_MAILBOX_DATA` lines: two `UINT32` stores and one `UINT64` store of
`Mailbox + constant` (a 64-bit sum). -/
def PatchMailbox (P : Platform) (Mailbox : Nat) (s : MpState) : MpState :=
  let s1 := s.emit (.Write32 (PatchAddress P Mailbox P.MailboxCodeStack)
    ((Mailbox + P.ACPI_ARM_MP_MAILBOX_FW_SIZE) % 2 ^ 64 % 2 ^ 32))
  let s2 := s1.emit (.Write32 (PatchAddress P Mailbox P.MailboxCodeProcessorIdOffset)
    ((Mailbox + P.ACPI_ARM_MP_MAILBOX_CPU_ID_OFFSET) % 2 ^ 64 % 2 ^ 32))
  s2.emit (.Write64 (PatchAddress P Mailbox P.MailboxCodeJumpAddressOffset)
    ((Mailbox + P.ACPI_ARM_MP_MAILBOX_JUMP_ADDR_OFFSET) % 2 ^ 64))

/-- The end of `MpEnableDisableAP`: the CPU_ON call and the status made of its answer. -/
def MpEnableDisableAP.cpuOn (P : Platform) (ArmCpu : ARM_CORE_INFO) (ProcessorNumber : Nat)
    (s : MpState) : EFI_STATUS × MpState :=
  let Arg2 := toUINTN P (s.mMpProcessorInfo ProcessorNumber).Mailbox
  let s1 := s.emit (.CpuOn ArmCpu Arg2)
  let Arg0 := P.PsciCpuOn ArmCpu Arg2
  if Arg0 = PSCI_RET.SUCCESS ∨ Arg0 = PSCI_RET.ALREADY_ON then (EFI_SUCCESS, s1)
  else (EFI_UNSUPPORTED, s1)

/-- The call of `mCpu->SetMemoryAttributes` in `MpEnableDisableAP` and the test of its
status: `(some Status, _)` when the function returns with `Status`. -/
def MpEnableDisableAP.setAttributes (P : Platform) (Mailbox : Nat) (s : MpState) :
    Option EFI_STATUS × MpState :=
  let s1 := s.emit (.SetMemoryAttributes Mailbox P.ACPI_ARM_MP_MAILBOX_SIZE)
  let Status := P.SetMemoryAttributes Mailbox
  if EFI_ERROR Status then (some Status, s1.emit (.FreePages Mailbox))
  else (none, s1)

/-- The body of `if (mMpProcessorInfo[ProcessorNumber].Mailbox == 0)` in
`MpEnableDisableAP`: `none` when an `ASSERT` stops the core, `some (some Status, _)`
when it returns from the function with `Status`, `some (none, _)` when it falls
through. -/
def MpEnableDisableAP.setupMailbox (P : Platform) (ProcessorNumber : Nat) (s : MpState) :
    Option (Option EFI_STATUS × MpState) :=
  let s1 := s.emit (.AllocatePages P.AllocatePages.2)
  if EFI_ERROR P.AllocatePages.1 then some (some P.AllocatePages.1, s1)
  else
    let s2 := s1.setMailbox ProcessorNumber P.AllocatePages.2
    let Mailbox := (s2.mMpProcessorInfo ProcessorNumber).Mailbox
    let MailboxCodeSize :=
      toUINTN P (toUINTN P P.MailboxCodeEnd + (2 ^ UINTN_BITS P - toUINTN P P.MailboxCodeStart))
    match ASSERT P (decide (MailboxCodeSize < P.ACPI_ARM_MP_MAILBOX_FW_SIZE / 2)) with
    | none => none
    | some _ =>
      let s3 := s2.emit (.CopyMem (toUINTN P Mailbox) P.MailboxCodeStart MailboxCodeSize)
      let s4 := PatchMailbox P Mailbox s3
      if s4.mCpu = 0 then
        let s5 := s4.emit .LocateProtocol
        if EFI_ERROR P.LocateProtocol.1 then
          some (some P.LocateProtocol.1, s5.emit (.FreePages Mailbox))
        else
          some (MpEnableDisableAP.setAttributes P Mailbox
            { s5 with mCpu := P.LocateProtocol.2 })
      else some (MpEnableDisableAP.setAttributes P Mailbox s4)

/-- `MpEnableDisableAP (This, ProcessorNumber, EnableAP, HealthFlag)`. -/
def MpEnableDisableAP (P : Platform) (T : ARM_PROCESSOR_TABLE) (s : MpState)
    (ProcessorNumber : Nat) (EnableAP : Bool) : Option (EFI_STATUS × MpState) :=
  if ProcessorNumber > T.NumberOfEntries then some (EFI_NOT_FOUND, s)
  else
    let ArmCpu := T.ArmCpus ProcessorNumber
    match MpWhoAmI P T false with
    | none => none
    | some (Status, none) => some (Status, s)
    | some (Status, some IAm) =>
      if EFI_ERROR Status then some (Status, s)
      else if IAm = ProcessorNumber then some (EFI_INVALID_PARAMETER, s)
      else if (s.mMpProcessorInfo ProcessorNumber).Mailbox = 0 then
        match MpEnableDisableAP.setupMailbox P ProcessorNumber s with
        | none => none
        | some (some Status, s1) => some (Status, s1)
        | some (none, s1) => some (MpEnableDisableAP.cpuOn P ArmCpu ProcessorNumber s1)
      else some (MpEnableDisableAP.cpuOn P ArmCpu ProcessorNumber s)

/-- The loop of `MpGetNumberOfProcessors`: the final value of `Enabled`. -/
def MpGetNumberOfProcessors.loop (P : Platform) (T : ARM_PROCESSOR_TABLE) : Nat → Nat → Nat → Nat
  | 0, _, Enabled => Enabled
  | n + 1, Index, Enabled =>
    if P.PsciAffinityInfo (T.ArmCpus Index) = PSCI_AFFINITY_INFO.ON then
      MpGetNumberOfProcessors.loop P T n (Index + 1) (Enabled + 1)
    else
      MpGetNumberOfProcessors.loop P T n (Index + 1) Enabled

/-- `MpGetNumberOfProcessors (This, NumberOfProcessors, NumberOfEnabledProcessors)`. The
second and third components of the result are what was stored through the two
pointers (`none`: nothing was stored). -/
def MpGetNumberOfProcessors (P : Platform) (T : ARM_PROCESSOR_TABLE)
    (NumberOfProcessorsIsNull NumberOfEnabledProcessorsIsNull : Bool) :
    Option (EFI_STATUS × Option Nat × Option Nat) :=
  let NumberOfProcessors := if NumberOfProcessorsIsNull then none else some T.NumberOfEntries
  if NumberOfEnabledProcessorsIsNull then some (EFI_SUCCESS, NumberOfProcessors, none)
  else
    let Enabled := MpGetNumberOfProcessors.loop P T T.NumberOfEntries 0 0
    match ASSERT P (decide (Enabled > 0)) with
    | none => none
    | some _ => some (EFI_SUCCESS, NumberOfProcessors, some Enabled)

/-- `MpGetProcessorInfo (This, ProcessorNumber, ProcessorInfoBuffer)`. The second
component of the result is what was stored in the buffer (`none`: nothing was stored). -/
def MpGetProcessorInfo (P : Platform) (T : ARM_PROCESSOR_TABLE) (ProcessorNumber : Nat)
    (ProcessorInfoBufferIsNull : Bool) : Option (EFI_STATUS × Option EFI_PROCESSOR_INFORMATION) :=
  if ProcessorInfoBufferIsNull then some (EFI_INVALID_PARAMETER, none)
  else if ProcessorNumber > T.NumberOfEntries then some (EFI_INVALID_PARAMETER, none)
  else
    let ArmCpu := T.ArmCpus ProcessorNumber
    match MpWhoAmI P T false with
    | none => none
    | some (Status, none) => some (Status, none)
    | some (Status, some IAm) =>
      if EFI_ERROR Status then some (Status, none)
      else
        let StatusFlag0 := P.PROCESSOR_HEALTH_STATUS_BIT
        let StatusFlag1 :=
          if IAm = ProcessorNumber then StatusFlag0 ||| P.PROCESSOR_AS_BSP_BIT else StatusFlag0
        let Arg0 := P.PsciAffinityInfo ArmCpu
        let StatusFlag2 :=
          if Arg0 = PSCI_AFFINITY_INFO.ON ∨ Arg0 = PSCI_AFFINITY_INFO.ON_PENDING then
            StatusFlag1 ||| P.PROCESSOR_ENABLED_BIT
          else StatusFlag1
        some (EFI_SUCCESS, some
          ⟨P.GET_MPID ArmCpu.ClusterId ArmCpu.CoreId, StatusFlag2,
           ⟨ArmCpu.ClusterId, ArmCpu.CoreId, 0⟩⟩)

/-! ## Words for the statements -/

/-- What one turn of the `SingleThread` loop does for an enabled handle: arm it, send
the wake interrupt, wait for the completion event. -/
def singleThreadTurn (CompletionEvent : EFI_EVENT) (Index : Nat) : List Effect :=
  [.SetProcedureToSecondaryCore Index CompletionEvent, .ArmGicSendSgiTo,
   .WaitForEvent CompletionEvent]

/-- The handles that the check loop of `MpStartupAllAPs` finds enabled, in ascending
order: those below `NumberOfEntries`, other than the caller's, for which
`WaitForSecondaryToBeEnabled` does not fail. -/
def enabledAPs (P : Platform) (T : ARM_PROCESSOR_TABLE) (IAm : Nat) : List Nat :=
  (List.range T.NumberOfEntries).filter
    (fun i => decide (i ≠ IAm) && !EFI_ERROR (P.WaitForSecondaryToBeEnabled (T.ArmCpus i)))

/-- The handle that an action arms, when it is a call of `SetProcedureToSecondaryCore`. -/
def armedHandle : Effect → Option Nat
  | .SetProcedureToSecondaryCore Index _ => some Index
  | _ => none

/-- The handles armed by a sequence of actions, in order and with repetitions. -/
def armedHandles (t : List Effect) : List Nat := t.filterMap armedHandle

/-- What claim C20 says of one call of `MpStartupAllAPs` from state `s`: when the call
returns `EFI_SUCCESS`, each handle below `NumberOfEntries`, other than the caller's, that
is enabled and not busy has been armed exactly once by the call, and every other handle
not at all. -/
def ArmsExactlyTheEnabled (P : Platform) (T : ARM_PROCESSOR_TABLE) (s : MpState)
    (SingleThread : Bool) (WaitEvent : EFI_EVENT) : Prop :=
  ∀ (s' : MpState) (IAm : Nat),
    MpWhoAmI P T false = some (EFI_SUCCESS, some IAm) →
    MpStartupAllAPs P T s SingleThread WaitEvent = some (EFI_SUCCESS, s') →
    ∀ h, (armedHandles (s'.trace.drop s.trace.length)).count h =
      if h < T.NumberOfEntries ∧ h ≠ IAm ∧
          EFI_ERROR (P.WaitForSecondaryToBeEnabled (T.ArmCpus h)) = false ∧
          P.IsSecondaryCoreBusy h = false
        then 1 else 0

/-! ## Concrete inputs -/

/-- A table of four cores of cluster 0: handle `i` is core `i`. -/
def table4 : ARM_PROCESSOR_TABLE := ⟨4, fun i => ⟨0, i⟩⟩

/-- A table of two cores of cluster 0: handle `i` is core `i`. -/
def table2 : ARM_PROCESSOR_TABLE := ⟨2, fun i => ⟨0, i⟩⟩

/-- An AArch64 DEBUG build executing on core 0 of cluster 0: cores 1 and 2 are enabled,
every other core is not, no core is busy and every service succeeds. -/
def platform0 : Platform where
  MDE_CPU_AARCH64 := true
  DebugAssertEnabled := true
  ArmReadMpidr := 0
  GET_CLUSTER_ID := fun MpId => MpId / 256 % 256
  GET_CORE_ID := fun MpId => MpId % 256
  WaitForSecondaryToBeEnabled := fun ArmCpu =>
    if ArmCpu.CoreId = 1 ∨ ArmCpu.CoreId = 2 then EFI_SUCCESS else EFI_TIMEOUT
  IsSecondaryCoreBusy := fun _ => false
  SetProcedureToSecondaryCore := fun _ _ => EFI_SUCCESS
  CreateEvent := (EFI_SUCCESS, 7)
  AllocatePages := (EFI_SUCCESS, 4096)
  LocateProtocol := (EFI_SUCCESS, 1)
  SetMemoryAttributes := fun _ => EFI_SUCCESS
  PsciAffinityInfo := fun ArmCpu =>
    if ArmCpu.CoreId ≤ 2 then PSCI_AFFINITY_INFO.ON else PSCI_AFFINITY_INFO.OFF
  PsciCpuOn := fun _ _ => PSCI_RET.SUCCESS
  ShiftOutOfRange := fun Index => 2 ^ (Index % 32)
  MailboxCodeStart := 65536
  MailboxCodeEnd := 65536 + 96
  MailboxCodeStack := 65536 + 72
  MailboxCodeProcessorIdOffset := 65536 + 80
  MailboxCodeJumpAddressOffset := 65536 + 88
  ACPI_ARM_MP_MAILBOX_SIZE := 4096
  ACPI_ARM_MP_MAILBOX_FW_SIZE := 2048
  ACPI_ARM_MP_MAILBOX_CPU_ID_OFFSET := 2048
  ACPI_ARM_MP_MAILBOX_JUMP_ADDR_OFFSET := 2056
  GET_MPID := fun ClusterId CoreId => ClusterId * 256 ||| CoreId
  PROCESSOR_AS_BSP_BIT := 1
  PROCESSOR_ENABLED_BIT := 2
  PROCESSOR_HEALTH_STATUS_BIT := 4

/-- The state after `ArmMpServicesAcpiPsciInit`: zeroed records, `mCpu` is `NULL`,
nothing done yet. -/
def state0 : MpState := ⟨fun _ => ⟨0, 0⟩, 0, []⟩

/-- The platform `platform0` with a CPU protocol that refuses to change the memory
attributes. -/
def platformNoAttributes : Platform :=
  { platform0 with SetMemoryAttributes := fun _ => EFI_DEVICE_ERROR }

/-- The state after core 0 of `table4` has enabled handle 1 on `platform0`, starting from
`state0`. -/
def state1 : MpState :=
  ((MpEnableDisableAP platform0 table4 state0 1 true).map Prod.snd).getD state0

/-- The platform `platform0` on which core 1 answers the power query with ON_PENDING. -/
def platformPending : Platform :=
  { platform0 with
    PsciAffinityInfo := fun ArmCpu =>
      if ArmCpu.CoreId = 1 then PSCI_AFFINITY_INFO.ON_PENDING
      else if ArmCpu.CoreId ≤ 2 then PSCI_AFFINITY_INFO.ON else PSCI_AFFINITY_INFO.OFF }

/-- The platform `platform0` executing on core 1, a secondary core (the boot core is
core 0); cores 0, 1 and 2 are enabled. -/
def platformOnAP : Platform :=
  { platform0 with
    ArmReadMpidr := 1
    WaitForSecondaryToBeEnabled := fun ArmCpu =>
      if ArmCpu.CoreId ≤ 2 then EFI_SUCCESS else EFI_TIMEOUT }

/-- A table of 33 cores of cluster 0: handle `i` is core `i`. -/
def table33 : ARM_PROCESSOR_TABLE := ⟨33, fun i => ⟨0, i⟩⟩

/-- The platform `platform0` (AArch64: `1 << 32` on 32 bits is `1`) on which core 32 is
the only enabled secondary core. -/
def platformCore32 : Platform :=
  { platform0 with
    WaitForSecondaryToBeEnabled := fun ArmCpu =>
      if ArmCpu.CoreId = 32 then EFI_SUCCESS else EFI_TIMEOUT }

/-- An AArch32 platform (`1 << 32` on 32 bits is `0`) on which cores 1 and 32 are the
enabled secondary cores. -/
def platformAArch32 : Platform :=
  { platform0 with
    MDE_CPU_AARCH64 := false
    ShiftOutOfRange := fun _ => 0
    WaitForSecondaryToBeEnabled := fun ArmCpu =>
      if ArmCpu.CoreId = 1 ∨ ArmCpu.CoreId = 32 then EFI_SUCCESS else EFI_TIMEOUT }

/-- The platform `platform0` (AArch64) on which `AllocatePages` returns the address
`2 ^ 32`, the first one above 4 GiB. -/
def platformHighMemory : Platform :=
  { platform0 with AllocatePages := (EFI_SUCCESS, 4294967296) }

/-! ## `MpWhoAmI` -/

/-- The status `EFI_SUCCESS` is not an error. -/
theorem EFI_ERROR_SUCCESS : EFI_ERROR EFI_SUCCESS = false := rfl

/-- Where the loop of `MpWhoAmI` returns, the entry has the searched coordinate and the
index lies in the scanned range. -/
theorem MpWhoAmI.loop_some (T : ARM_PROCESSOR_TABLE) (cl co : Nat) :
    ∀ (n Index h : Nat), MpWhoAmI.loop T cl co n Index = some h →
      Index ≤ h ∧ h < Index + n ∧ (T.ArmCpus h).ClusterId = cl ∧ (T.ArmCpus h).CoreId = co := by
  intro n
  induction n with
  | zero => intro Index h hh; simp [MpWhoAmI.loop] at hh
  | succ n ih =>
    intro Index h hh
    unfold MpWhoAmI.loop at hh
    split at hh
    · rename_i hm
      cases hh
      exact ⟨Nat.le_refl _, by omega, hm.1, hm.2⟩
    · obtain ⟨h1, h2, h3⟩ := ih (Index + 1) h hh
      exact ⟨by omega, by omega, h3⟩

/-- The loop of `MpWhoAmI` returns when the searched coordinate is in the scanned
range. -/
theorem MpWhoAmI.loop_isSome (T : ARM_PROCESSOR_TABLE) (cl co : Nat) :
    ∀ (n Index j : Nat), Index ≤ j → j < Index + n →
      (T.ArmCpus j).ClusterId = cl → (T.ArmCpus j).CoreId = co →
      ∃ h, MpWhoAmI.loop T cl co n Index = some h := by
  intro n
  induction n with
  | zero => intro Index j h1 h2; omega
  | succ n ih =>
    intro Index j h1 h2 h3 h4
    unfold MpWhoAmI.loop
    split
    · exact ⟨Index, rfl⟩
    · rename_i hm
      have hne : j ≠ Index := by
        intro he
        subst he
        exact hm ⟨h3, h4⟩
      exact ih (Index + 1) j (by omega) (by omega) h3 h4

/-- A handle that `MpWhoAmI` returns is below `NumberOfEntries` and names an entry with
the coordinate of the executing core. -/
theorem MpWhoAmI_some (P : Platform) (T : ARM_PROCESSOR_TABLE) (b : Bool) (Status : EFI_STATUS)
    (IAm : Nat) (h : MpWhoAmI P T b = some (Status, some IAm)) :
    Status = EFI_SUCCESS ∧ IAm < T.NumberOfEntries ∧
      (T.ArmCpus IAm).ClusterId = P.GET_CLUSTER_ID P.ArmReadMpidr ∧
      (T.ArmCpus IAm).CoreId = P.GET_CORE_ID P.ArmReadMpidr := by
  unfold MpWhoAmI at h
  split at h
  · simp at h
  · simp only at h
    split at h
    · rename_i Index hl
      simp only [Option.some.injEq, Prod.mk.injEq] at h
      obtain ⟨h1, h2⟩ := h
      subst h2
      obtain ⟨_, h3, h4⟩ := MpWhoAmI.loop_some T _ _ _ _ _ hl
      exact ⟨h1.symm, by omega, h4⟩
    · split at h <;> simp at h

/-- C5. Identity round trip: when the coordinate `C` of the executing core occurs in the
table, `MpWhoAmI` with a non-NULL output returns `EFI_SUCCESS` and stores a handle
`h < NumberOfEntries` whose table entry is exactly `C`. -/
theorem MpWhoAmI_round_trip (P : Platform) (T : ARM_PROCESSOR_TABLE) (C : ARM_CORE_INFO)
    (hC : C = ⟨P.GET_CLUSTER_ID P.ArmReadMpidr, P.GET_CORE_ID P.ArmReadMpidr⟩)
    (hT : ∃ i, i < T.NumberOfEntries ∧ T.ArmCpus i = C) :
    ∃ h, MpWhoAmI P T false = some (EFI_SUCCESS, some h) ∧
      h < T.NumberOfEntries ∧ T.ArmCpus h = C := by
  obtain ⟨i, hi, hiC⟩ := hT
  subst hC
  obtain ⟨h, hh⟩ := MpWhoAmI.loop_isSome T (P.GET_CLUSTER_ID P.ArmReadMpidr)
    (P.GET_CORE_ID P.ArmReadMpidr) T.NumberOfEntries 0 i (Nat.zero_le _) (by omega)
    (by rw [hiC]) (by rw [hiC])
  obtain ⟨_, h2, h3, h4⟩ := MpWhoAmI.loop_some T _ _ _ _ _ hh
  refine ⟨h, ?_, by omega, ?_⟩
  · simp [MpWhoAmI, hh]
  · cases hc : T.ArmCpus h with
    | mk cl co =>
      rw [hc] at h3 h4
      simp only at h3 h4
      rw [h3, h4]

/-- C5 at a concrete input: on `table4`, executed on core 2 of cluster 0. -/
theorem MpWhoAmI_round_trip_witness :
    (∃ i, i < table4.NumberOfEntries ∧ table4.ArmCpus i = ⟨0, 2⟩) ∧
    ∃ h, MpWhoAmI { platform0 with ArmReadMpidr := 2 } table4 false = some (EFI_SUCCESS, some h) ∧
      h < table4.NumberOfEntries ∧ table4.ArmCpus h = ⟨0, 2⟩ :=
  ⟨⟨2, by decide, rfl⟩,
   MpWhoAmI_round_trip { platform0 with ArmReadMpidr := 2 } table4 ⟨0, 2⟩ rfl ⟨2, by decide, rfl⟩⟩

/-! ## `MpStartupThisAP`: the parameter checks -/

/-- C6. Called with the caller's own handle, `MpStartupThisAP` returns
`EFI_INVALID_PARAMETER` and leaves the state as it was: no core is armed, no record
(so no completion event) is changed and no wake interrupt is sent. -/
theorem MpStartupThisAP_own_handle (P : Platform) (T : ARM_PROCESSOR_TABLE) (s : MpState)
    (IAm : Nat) (WaitEvent : EFI_EVENT)
    (hIAm : MpWhoAmI P T false = some (EFI_SUCCESS, some IAm)) :
    MpStartupThisAP P T s IAm WaitEvent = some (EFI_INVALID_PARAMETER, s) := by
  have hlt : IAm < T.NumberOfEntries := (MpWhoAmI_some P T false _ _ hIAm).2.1
  have hgt : ¬ IAm > T.NumberOfEntries := by omega
  simp [MpStartupThisAP, hgt, hIAm, EFI_ERROR]

/-- C6 at a concrete input: core 0 of `table4` asks for handle 0. -/
theorem MpStartupThisAP_own_handle_witness :
    MpWhoAmI platform0 table4 false = some (EFI_SUCCESS, some 0) ∧
    MpStartupThisAP platform0 table4 state0 0 0 = some (EFI_INVALID_PARAMETER, state0) :=
  ⟨by decide, MpStartupThisAP_own_handle platform0 table4 state0 0 0 (by decide)⟩

/-- C7 at the failing input. `table4` has `N = 4` entries and `ProcessorNumber = 4` is the
one-past-end value: the test `ProcessorNumber > NumberOfEntries` lets it through, the
entry behind the table is read, and the call returns `EFI_DEVICE_ERROR`, not
`EFI_NOT_FOUND`. -/
theorem MpStartupThisAP_one_past_end :
    4 ≥ table4.NumberOfEntries ∧
    (MpStartupThisAP platform0 table4 state0 4 0).map (fun r => (r.1, r.2.trace))
      = some (EFI_DEVICE_ERROR, []) ∧
    (MpStartupThisAP platform0 table4 state0 4 0).map (fun r => r.1) ≠ some EFI_NOT_FOUND := by
  decide

/-! ## `MpSwitchBSP` -/

/-- C8 on the code. For every `ProcessorNumber` and `EnableOldBSP`, `MpSwitchBSP` stops in
`ASSERT (0)` in a DEBUG build and returns `EFI_SUCCESS` otherwise; it returns
`EFI_UNSUPPORTED` in no build. -/
theorem MpSwitchBSP_returns_success (P : Platform) (ProcessorNumber : Nat)
    (EnableOldBSP : Bool) :
    MpSwitchBSP P ProcessorNumber EnableOldBSP
        = (if P.DebugAssertEnabled then none else some EFI_SUCCESS) ∧
      MpSwitchBSP P ProcessorNumber EnableOldBSP ≠ some EFI_UNSUPPORTED ∧
      MpSwitchBSP { platform0 with DebugAssertEnabled := false } ProcessorNumber EnableOldBSP
        = some EFI_SUCCESS := by
  refine ⟨?_, ?_, ?_⟩
  · cases h : P.DebugAssertEnabled <;> simp [MpSwitchBSP, ASSERT, h]
  · cases h : P.DebugAssertEnabled <;> simp [MpSwitchBSP, ASSERT, h]
  · simp [MpSwitchBSP, ASSERT]

/-! ## `MpStartupAllAPs`: the check loop -/

/-- The check loop returns `EFI_NOT_READY` when an enabled, busy core other than the
caller lies in the range it scans. -/
theorem MpStartupAllAPs.checkLoop_not_ready (P : Platform) (T : ARM_PROCESSOR_TABLE)
    (IAm : Nat) :
    ∀ (n Index EnabledArmCpus j : Nat), Index ≤ j → j < Index + n → j ≠ IAm →
      EFI_ERROR (P.WaitForSecondaryToBeEnabled (T.ArmCpus j)) = false →
      P.IsSecondaryCoreBusy j = true →
      MpStartupAllAPs.checkLoop P T IAm n Index EnabledArmCpus = .error EFI_NOT_READY := by
  intro n
  induction n with
  | zero => intro Index m j h1 h2; omega
  | succ n ih =>
    intro Index m j h1 h2 h3 h4 h5
    unfold MpStartupAllAPs.checkLoop
    by_cases hj : j = Index
    · subst hj
      simp [h3, h4, h5]
    · have hle : Index + 1 ≤ j := by omega
      have hlt : j < Index + 1 + n := by omega
      split
      · split
        · exact ih _ _ j hle hlt h3 h4 h5
        · split
          · rfl
          · exact ih _ _ j hle hlt h3 h4 h5
      · exact ih _ _ j hle hlt h3 h4 h5

/-- The check loop leaves `EnabledArmCpus` as it is when no core other than the caller
is enabled in the range it scans. -/
theorem MpStartupAllAPs.checkLoop_none_enabled (P : Platform) (T : ARM_PROCESSOR_TABLE)
    (IAm : Nat) :
    ∀ (n Index EnabledArmCpus : Nat),
      (∀ j, Index ≤ j → j < Index + n → j ≠ IAm →
        EFI_ERROR (P.WaitForSecondaryToBeEnabled (T.ArmCpus j)) = true) →
      MpStartupAllAPs.checkLoop P T IAm n Index EnabledArmCpus = .ok EnabledArmCpus := by
  intro n
  induction n with
  | zero => intro Index m _; rfl
  | succ n ih =>
    intro Index m h
    unfold MpStartupAllAPs.checkLoop
    have hrest : ∀ j, Index + 1 ≤ j → j < Index + 1 + n → j ≠ IAm →
        EFI_ERROR (P.WaitForSecondaryToBeEnabled (T.ArmCpus j)) = true :=
      fun j h1 h2 h3 => h j (by omega) (by omega) h3
    by_cases hI : Index = IAm
    · simp [hI]
      exact ih _ _ (hI ▸ hrest)
    · simp [hI, h Index (Nat.le_refl _) (by omega) hI]
      exact ih _ _ hrest

/-- C1. When some handle other than the caller's is enabled and busy, `MpStartupAllAPs`
returns `EFI_NOT_READY` and leaves the state as it was: nothing was added to the trace
(no `SetProcedureToSecondaryCore`, no event created, no wake interrupt) and no processor
record was changed. -/
theorem MpStartupAllAPs_not_ready (P : Platform) (T : ARM_PROCESSOR_TABLE) (s : MpState)
    (SingleThread : Bool) (WaitEvent : EFI_EVENT) (IAm : Nat)
    (hIAm : MpWhoAmI P T false = some (EFI_SUCCESS, some IAm))
    (hBusy : ∃ j, j < T.NumberOfEntries ∧ j ≠ IAm ∧
      EFI_ERROR (P.WaitForSecondaryToBeEnabled (T.ArmCpus j)) = false ∧
      P.IsSecondaryCoreBusy j = true) :
    MpStartupAllAPs P T s SingleThread WaitEvent = some (EFI_NOT_READY, s) := by
  obtain ⟨j, h1, h2, h3, h4⟩ := hBusy
  have hl := MpStartupAllAPs.checkLoop_not_ready P T IAm T.NumberOfEntries 0 0 j
    (Nat.zero_le _) (by omega) h2 h3 h4
  simp [MpStartupAllAPs, hIAm, EFI_ERROR, hl]

/-- C1 at a concrete input: on `table4`, caller 0, core 2 is enabled and busy. -/
theorem MpStartupAllAPs_not_ready_witness :
    MpWhoAmI { platform0 with IsSecondaryCoreBusy := fun i => decide (i = 2) } table4 false
      = some (EFI_SUCCESS, some 0) ∧
    MpStartupAllAPs { platform0 with IsSecondaryCoreBusy := fun i => decide (i = 2) } table4
      state0 true 0 = some (EFI_NOT_READY, state0) :=
  ⟨by decide,
   MpStartupAllAPs_not_ready { platform0 with IsSecondaryCoreBusy := fun i => decide (i = 2) }
     table4 state0 true 0 0 (by decide) ⟨2, by decide, by decide, by decide, by decide⟩⟩

/-- C4. When no handle other than the caller's is enabled, `MpStartupAllAPs` returns
`EFI_NOT_STARTED` and leaves the state as it was: no core is armed, no event is created
and no wake interrupt is sent. -/
theorem MpStartupAllAPs_not_started (P : Platform) (T : ARM_PROCESSOR_TABLE) (s : MpState)
    (SingleThread : Bool) (WaitEvent : EFI_EVENT) (IAm : Nat)
    (hIAm : MpWhoAmI P T false = some (EFI_SUCCESS, some IAm))
    (hOff : ∀ j, j < T.NumberOfEntries → j ≠ IAm →
      EFI_ERROR (P.WaitForSecondaryToBeEnabled (T.ArmCpus j)) = true) :
    MpStartupAllAPs P T s SingleThread WaitEvent = some (EFI_NOT_STARTED, s) := by
  have hl := MpStartupAllAPs.checkLoop_none_enabled P T IAm T.NumberOfEntries 0 0
    (fun j _ h2 h3 => hOff j (by omega) h3)
  simp [MpStartupAllAPs, hIAm, EFI_ERROR, hl]

/-- C4 at a concrete input: on `table4`, caller 0, no secondary core is enabled. -/
theorem MpStartupAllAPs_not_started_witness :
    MpWhoAmI { platform0 with WaitForSecondaryToBeEnabled := fun _ => EFI_TIMEOUT } table4 false
      = some (EFI_SUCCESS, some 0) ∧
    MpStartupAllAPs { platform0 with WaitForSecondaryToBeEnabled := fun _ => EFI_TIMEOUT } table4
      state0 false 0 = some (EFI_NOT_STARTED, state0) :=
  ⟨by decide,
   MpStartupAllAPs_not_started
     { platform0 with WaitForSecondaryToBeEnabled := fun _ => EFI_TIMEOUT }
     table4 state0 false 0 0 (by decide) (fun _ _ _ => rfl)⟩

/-! ## `MpStartupAllAPs`: the dispatch loops, for tables of at most 32 entries -/

/-- The test `EnabledArmCpus & (1 << Index)` reads bit `Index` of `EnabledArmCpus`. -/
theorem and_two_pow_ne_zero_iff (m i : Nat) : m &&& 2 ^ i ≠ 0 ↔ m.testBit i = true := by
  constructor
  · intro h
    obtain ⟨j, hj⟩ := Nat.ne_zero_implies_bit_true h
    rw [Nat.testBit_and, Nat.testBit_two_pow] at hj
    simp only [Bool.and_eq_true, decide_eq_true_eq] at hj
    obtain ⟨h1, h2⟩ := hj
    rw [h2]
    exact h1
  · intro h h0
    have hb : (m &&& 2 ^ i).testBit i = true := by
      rw [Nat.testBit_and, Nat.testBit_two_pow_self, h]
      rfl
    rw [h0] at hb
    simp at hb

/-- Below 32 the shift is the power of two. -/
theorem Shl1_of_lt (P : Platform) (Index : Nat) (h : Index < 32) : Shl1 P Index = 2 ^ Index := by
  simp [Shl1, h]

/-- On at most 32 entries with no enabled core busy, the check loop ends with a mask
whose bits are the old ones and those of the enabled handles, other than the caller's,
that it scanned. -/
theorem MpStartupAllAPs.checkLoop_ok (P : Platform) (T : ARM_PROCESSOR_TABLE) (IAm : Nat) :
    ∀ (n Index m : Nat), Index + n ≤ 32 → m < 2 ^ 32 →
      (∀ j, Index ≤ j → j < Index + n → j ≠ IAm →
        EFI_ERROR (P.WaitForSecondaryToBeEnabled (T.ArmCpus j)) = false →
        P.IsSecondaryCoreBusy j = false) →
      ∃ m', MpStartupAllAPs.checkLoop P T IAm n Index m = .ok m' ∧ m' < 2 ^ 32 ∧
        ∀ j, m'.testBit j = true ↔
          (m.testBit j = true ∨ (Index ≤ j ∧ j < Index + n ∧ j ≠ IAm ∧
            EFI_ERROR (P.WaitForSecondaryToBeEnabled (T.ArmCpus j)) = false)) := by
  intro n
  induction n with
  | zero =>
    intro Index m _ hm _
    refine ⟨m, rfl, hm, fun j => ?_⟩
    constructor
    · intro h; exact Or.inl h
    · rintro (h | ⟨h1, h2, _⟩)
      · exact h
      · omega
  | succ n ih =>
    intro Index m hI hm hIdle
    have hrest : ∀ j, Index + 1 ≤ j → j < Index + 1 + n → j ≠ IAm →
        EFI_ERROR (P.WaitForSecondaryToBeEnabled (T.ArmCpus j)) = false →
        P.IsSecondaryCoreBusy j = false :=
      fun j h1 h2 h3 h4 => hIdle j (by omega) (by omega) h3 h4
    unfold MpStartupAllAPs.checkLoop
    by_cases hc : Index = IAm
    · obtain ⟨m', h1, h2, h3⟩ := ih (Index + 1) m (by omega) hm hrest
      refine ⟨m', by simp [hc]; exact hc ▸ h1, h2, fun j => ?_⟩
      rw [h3 j]
      constructor
      · rintro (h | ⟨a, b, c, d⟩)
        · exact Or.inl h
        · exact Or.inr ⟨by omega, by omega, c, d⟩
      · rintro (h | ⟨a, b, c, d⟩)
        · exact Or.inl h
        · exact Or.inr ⟨by omega, by omega, c, d⟩
    · cases hw : EFI_ERROR (P.WaitForSecondaryToBeEnabled (T.ArmCpus Index)) with
      | true =>
        obtain ⟨m', h1, h2, h3⟩ := ih (Index + 1) m (by omega) hm hrest
        refine ⟨m', by simp [hc, hw]; exact h1, h2, fun j => ?_⟩
        rw [h3 j]
        constructor
        · rintro (h | ⟨a, b, c, d⟩)
          · exact Or.inl h
          · exact Or.inr ⟨by omega, by omega, c, d⟩
        · rintro (h | ⟨a, b, c, d⟩)
          · exact Or.inl h
          · have : j ≠ Index := by
              intro he
              rw [he, hw] at d
              cases d
            exact Or.inr ⟨by omega, by omega, c, d⟩
      | false =>
        have hb := hIdle Index (Nat.le_refl _) (by omega) hc hw
        have h32 : Index < 32 := by omega
        have hp : 2 ^ Index < 2 ^ 32 := Nat.pow_lt_pow_right (by decide) h32
        have hor : m ||| 2 ^ Index < 2 ^ 32 := Nat.or_lt_two_pow hm hp
        obtain ⟨m', h1, h2, h3⟩ := ih (Index + 1) (m ||| 2 ^ Index) (by omega) hor hrest
        refine ⟨m', ?_, h2, fun j => ?_⟩
        · simp only [hc, ne_eq, not_false_eq_true, if_true, hw, hb, Shl1_of_lt P Index h32,
            Nat.mod_eq_of_lt hor, Bool.false_eq_true, if_false]
          exact h1
        · rw [h3 j, Nat.testBit_or, Nat.testBit_two_pow]
          simp only [Bool.or_eq_true, decide_eq_true_eq]
          constructor
          · rintro ((h | h) | ⟨a, b, c, d⟩)
            · exact Or.inl h
            · subst h
              exact Or.inr ⟨Nat.le_refl _, by omega, hc, hw⟩
            · exact Or.inr ⟨by omega, by omega, c, d⟩
          · rintro (h | ⟨a, b, c, d⟩)
            · exact Or.inl (Or.inl h)
            · by_cases he : Index = j
              · exact Or.inl (Or.inr he)
              · exact Or.inr ⟨by omega, by omega, c, d⟩

/-- Within 32 entries and as long as arming succeeds, the `SingleThread` loop runs to its
end and adds one turn for each scanned handle whose bit is set, in ascending order. -/
theorem MpStartupAllAPs.singleThreadLoop_trace (P : Platform) (m : Nat) (ev : EFI_EVENT) :
    ∀ (n Index : Nat) (s : MpState), Index + n ≤ 32 →
      (∀ i, Index ≤ i → i < Index + n → m.testBit i = true →
        EFI_ERROR (P.SetProcedureToSecondaryCore i ev) = false) →
      MpStartupAllAPs.singleThreadLoop P m ev n Index s =
        (none, ⟨s.mMpProcessorInfo, s.mCpu, s.trace ++
          ((List.range' Index n).filter (fun i => m.testBit i)).flatMap
            (singleThreadTurn ev)⟩) := by
  intro n
  induction n with
  | zero => intro Index s _ _; simp [MpStartupAllAPs.singleThreadLoop]
  | succ n ih =>
    intro Index s hI hArm
    have hrest : ∀ i, Index + 1 ≤ i → i < Index + 1 + n → m.testBit i = true →
        EFI_ERROR (P.SetProcedureToSecondaryCore i ev) = false :=
      fun i h1 h2 h3 => hArm i (by omega) (by omega) h3
    have h32 : Index < 32 := by omega
    unfold MpStartupAllAPs.singleThreadLoop
    rw [Shl1_of_lt P Index h32, List.range'_succ]
    cases hb : m.testBit Index with
    | true =>
      have hne : m &&& 2 ^ Index ≠ 0 := (and_two_pow_ne_zero_iff m Index).2 hb
      have ha := hArm Index (Nat.le_refl _) (by omega) hb
      simp only [hne, ne_eq, not_false_eq_true, if_true, ha, Bool.false_eq_true, if_false]
      rw [ih (Index + 1) _ (by omega) hrest]
      simp [MpState.emit, List.filter_cons, hb, singleThreadTurn]
    | false =>
      have hz : ¬ (m &&& 2 ^ Index ≠ 0) := by
        rw [and_two_pow_ne_zero_iff, hb]
        simp
      simp only [hz, if_false]
      rw [ih (Index + 1) _ (by omega) hrest]
      simp [List.filter_cons, hb]

/-- Within 32 entries and as long as arming succeeds, the loop of the simultaneous branch
runs to its end and arms each scanned handle whose bit is set, in ascending order, with
the same event. -/
theorem MpStartupAllAPs.allLoop_trace (P : Platform) (m : Nat) (ev : EFI_EVENT) :
    ∀ (n Index : Nat) (s : MpState), Index + n ≤ 32 →
      (∀ i, Index ≤ i → i < Index + n → m.testBit i = true →
        EFI_ERROR (P.SetProcedureToSecondaryCore i ev) = false) →
      MpStartupAllAPs.allLoop P m ev n Index s =
        (none, ⟨s.mMpProcessorInfo, s.mCpu, s.trace ++
          ((List.range' Index n).filter (fun i => m.testBit i)).map
            (fun i => Effect.SetProcedureToSecondaryCore i ev)⟩) := by
  intro n
  induction n with
  | zero => intro Index s _ _; simp [MpStartupAllAPs.allLoop]
  | succ n ih =>
    intro Index s hI hArm
    have hrest : ∀ i, Index + 1 ≤ i → i < Index + 1 + n → m.testBit i = true →
        EFI_ERROR (P.SetProcedureToSecondaryCore i ev) = false :=
      fun i h1 h2 h3 => hArm i (by omega) (by omega) h3
    have h32 : Index < 32 := by omega
    unfold MpStartupAllAPs.allLoop
    rw [Shl1_of_lt P Index h32, List.range'_succ]
    cases hb : m.testBit Index with
    | true =>
      have hne : m &&& 2 ^ Index ≠ 0 := (and_two_pow_ne_zero_iff m Index).2 hb
      have ha := hArm Index (Nat.le_refl _) (by omega) hb
      simp only [hne, ne_eq, not_false_eq_true, if_true, ha, Bool.false_eq_true, if_false]
      rw [ih (Index + 1) _ (by omega) hrest]
      simp [MpState.emit, List.filter_cons, hb]
    | false =>
      have hz : ¬ (m &&& 2 ^ Index ≠ 0) := by
        rw [and_two_pow_ne_zero_iff, hb]
        simp
      simp only [hz, if_false]
      rw [ih (Index + 1) _ (by omega) hrest]
      simp [List.filter_cons, hb]

/-- The members of `enabledAPs`. -/
theorem mem_enabledAPs (P : Platform) (T : ARM_PROCESSOR_TABLE) (IAm h : Nat) :
    h ∈ enabledAPs P T IAm ↔ (h < T.NumberOfEntries ∧ h ≠ IAm ∧
      EFI_ERROR (P.WaitForSecondaryToBeEnabled (T.ArmCpus h)) = false) := by
  simp [enabledAPs, List.mem_filter, List.mem_range]

/-- The list `enabledAPs` is strictly ascending. -/
theorem enabledAPs_pairwise (P : Platform) (T : ARM_PROCESSOR_TABLE) (IAm : Nat) :
    (enabledAPs P T IAm).Pairwise (· < ·) :=
  List.Pairwise.filter _ (List.pairwise_lt_range _)

/-- On at most 32 entries with no enabled core busy, the check loop of `MpStartupAllAPs`
ends with a mask whose set bits are the handles of `enabledAPs`. -/
theorem MpStartupAllAPs.checkLoop_enabledAPs (P : Platform) (T : ARM_PROCESSOR_TABLE)
    (IAm : Nat) (hN : T.NumberOfEntries ≤ 32)
    (hIdle : ∀ j, j < T.NumberOfEntries → j ≠ IAm →
      EFI_ERROR (P.WaitForSecondaryToBeEnabled (T.ArmCpus j)) = false →
      P.IsSecondaryCoreBusy j = false) :
    ∃ m, MpStartupAllAPs.checkLoop P T IAm T.NumberOfEntries 0 0 = .ok m ∧
      (∀ j, m.testBit j = true ↔ j ∈ enabledAPs P T IAm) ∧
      (List.range' 0 T.NumberOfEntries).filter (fun i => m.testBit i) = enabledAPs P T IAm := by
  obtain ⟨m, h1, _, h3⟩ := MpStartupAllAPs.checkLoop_ok P T IAm T.NumberOfEntries 0 0
    (by omega) (by decide) (fun j _ h2 h3 h4 => hIdle j (by omega) h3 h4)
  have hbit : ∀ j, m.testBit j = true ↔ j ∈ enabledAPs P T IAm := by
    intro j
    rw [h3 j, mem_enabledAPs]
    simp
  refine ⟨m, h1, hbit, ?_⟩
  unfold enabledAPs
  rw [List.range_eq_range']
  apply List.filter_congr
  intro x hx
  have hx' : x < T.NumberOfEntries := by
    have := List.mem_range.1 (List.range_eq_range' _ ▸ hx)
    exact this
  have := hbit x
  rw [mem_enabledAPs] at this
  cases hb : m.testBit x with
  | true =>
    obtain ⟨_, h5, h6⟩ := this.1 hb
    simp [h5, h6]
  | false =>
    by_contra hcon
    have hp : (decide (x ≠ IAm) &&
        !EFI_ERROR (P.WaitForSecondaryToBeEnabled (T.ArmCpus x))) = true := by
      cases hq : (decide (x ≠ IAm) &&
        !EFI_ERROR (P.WaitForSecondaryToBeEnabled (T.ArmCpus x)))
      · rw [hq] at hcon; exact absurd rfl hcon
      · rfl
    simp only [Bool.and_eq_true, decide_eq_true_eq, Bool.not_eq_true'] at hp
    have := this.2 ⟨hx', hp.1, hp.2⟩
    rw [hb] at this
    cases this

/-- C2. Sequential mode on at most 32 entries, no enabled core busy, at least one
enabled, event creation and arming succeed: `MpStartupAllAPs` returns `EFI_SUCCESS`,
changes no record, and what it does is: create the completion event, then for each
handle of `enabledAPs` in strictly ascending order one turn (arm the handle, one wake
broadcast, one wait on the completion event, so each wait precedes the next arm), then
close the event and signal `WaitEvent` when there is one. Only handles that are enabled
and not the caller's are armed. -/
theorem MpStartupAllAPs_singleThread (P : Platform) (T : ARM_PROCESSOR_TABLE) (s : MpState)
    (WaitEvent : EFI_EVENT) (IAm : Nat)
    (hN : T.NumberOfEntries ≤ 32)
    (hIAm : MpWhoAmI P T false = some (EFI_SUCCESS, some IAm))
    (hIdle : ∀ j, j < T.NumberOfEntries → j ≠ IAm →
      EFI_ERROR (P.WaitForSecondaryToBeEnabled (T.ArmCpus j)) = false →
      P.IsSecondaryCoreBusy j = false)
    (hSome : ∃ j, j < T.NumberOfEntries ∧ j ≠ IAm ∧
      EFI_ERROR (P.WaitForSecondaryToBeEnabled (T.ArmCpus j)) = false)
    (hCreate : EFI_ERROR P.CreateEvent.1 = false)
    (hArm : ∀ j, j < T.NumberOfEntries → j ≠ IAm →
      EFI_ERROR (P.WaitForSecondaryToBeEnabled (T.ArmCpus j)) = false →
      EFI_ERROR (P.SetProcedureToSecondaryCore j P.CreateEvent.2) = false) :
    MpStartupAllAPs P T s true WaitEvent = some (EFI_SUCCESS,
        ⟨s.mMpProcessorInfo, s.mCpu,
         s.trace ++ [Effect.CreateEvent P.CreateEvent.2]
           ++ (enabledAPs P T IAm).flatMap (singleThreadTurn P.CreateEvent.2)
           ++ [Effect.CloseEvent P.CreateEvent.2]
           ++ (if WaitEvent ≠ 0 then [Effect.SignalEvent WaitEvent] else [])⟩) ∧
      (enabledAPs P T IAm).Pairwise (· < ·) ∧
      (∀ h, h ∈ enabledAPs P T IAm ↔ (h < T.NumberOfEntries ∧ h ≠ IAm ∧
        EFI_ERROR (P.WaitForSecondaryToBeEnabled (T.ArmCpus h)) = false)) := by
  refine ⟨?_, enabledAPs_pairwise P T IAm, mem_enabledAPs P T IAm⟩
  obtain ⟨m, hm, hbit, hfilter⟩ := MpStartupAllAPs.checkLoop_enabledAPs P T IAm hN hIdle
  obtain ⟨j, hj1, hj2, hj3⟩ := hSome
  have hmj : m.testBit j = true := (hbit j).2 ((mem_enabledAPs P T IAm j).2 ⟨hj1, hj2, hj3⟩)
  have hm0 : m ≠ 0 := by
    intro h0
    rw [h0] at hmj
    simp at hmj
  have hloop := MpStartupAllAPs.singleThreadLoop_trace P m P.CreateEvent.2 T.NumberOfEntries 0
    (s.emit (.CreateEvent P.CreateEvent.2)) (by omega)
    (fun i _ _ hi => by
      obtain ⟨a, b, c⟩ := (mem_enabledAPs P T IAm i).1 ((hbit i).1 hi)
      exact hArm i a b c)
  rw [hfilter] at hloop
  simp only [MpStartupAllAPs, hIAm, EFI_ERROR_SUCCESS, hm, hm0, if_true, hCreate, hloop,
    Bool.false_eq_true, if_false]
  by_cases hw : WaitEvent = 0 <;> simp [hw, MpState.emit]

/-- C2 at the input of the example scenario: 4 entries, caller 0, cores 1 and 2 enabled,
core 3 not, blocking call. Handle 1 is armed, then handle 2, handle 3 never, and the call
returns `EFI_SUCCESS`. -/
theorem MpStartupAllAPs_singleThread_witness :
    (MpStartupAllAPs platform0 table4 state0 true 0 = some (EFI_SUCCESS,
        ⟨state0.mMpProcessorInfo, state0.mCpu,
         state0.trace ++ [Effect.CreateEvent platform0.CreateEvent.2]
           ++ (enabledAPs platform0 table4 0).flatMap (singleThreadTurn platform0.CreateEvent.2)
           ++ [Effect.CloseEvent platform0.CreateEvent.2]
           ++ (if (0 : EFI_EVENT) ≠ 0 then [Effect.SignalEvent 0] else [])⟩) ∧
      (enabledAPs platform0 table4 0).Pairwise (· < ·) ∧
      (∀ h, h ∈ enabledAPs platform0 table4 0 ↔ (h < table4.NumberOfEntries ∧ h ≠ 0 ∧
        EFI_ERROR (platform0.WaitForSecondaryToBeEnabled (table4.ArmCpus h)) = false))) ∧
    enabledAPs platform0 table4 0 = [1, 2] ∧
    (MpStartupAllAPs platform0 table4 state0 true 0).map (fun r => (r.1, r.2.trace))
      = some (EFI_SUCCESS,
          [.CreateEvent 7,
           .SetProcedureToSecondaryCore 1 7, .ArmGicSendSgiTo, .WaitForEvent 7,
           .SetProcedureToSecondaryCore 2 7, .ArmGicSendSgiTo, .WaitForEvent 7,
           .CloseEvent 7]) :=
  ⟨MpStartupAllAPs_singleThread platform0 table4 state0 0 0 (by decide) (by decide)
     (by decide) ⟨1, by decide, by decide, by decide⟩ (by decide) (by decide),
   by decide, by decide⟩

/-- C3. Simultaneous mode on at most 32 entries, no enabled core busy, at least one
enabled, event creation and arming succeed: `MpStartupAllAPs` returns `EFI_SUCCESS`,
changes no record, and what it does is: create one event when `WaitEvent` is NULL, arm
every handle of `enabledAPs` with one and the same event (`WaitEvent`, or the created
one when `WaitEvent` is NULL), then send one wake broadcast, then wait once on that
event when `WaitEvent` is NULL and not at all otherwise. -/
theorem MpStartupAllAPs_simultaneous (P : Platform) (T : ARM_PROCESSOR_TABLE) (s : MpState)
    (WaitEvent : EFI_EVENT) (IAm : Nat)
    (hN : T.NumberOfEntries ≤ 32)
    (hIAm : MpWhoAmI P T false = some (EFI_SUCCESS, some IAm))
    (hIdle : ∀ j, j < T.NumberOfEntries → j ≠ IAm →
      EFI_ERROR (P.WaitForSecondaryToBeEnabled (T.ArmCpus j)) = false →
      P.IsSecondaryCoreBusy j = false)
    (hSome : ∃ j, j < T.NumberOfEntries ∧ j ≠ IAm ∧
      EFI_ERROR (P.WaitForSecondaryToBeEnabled (T.ArmCpus j)) = false)
    (hCreate : WaitEvent = 0 → EFI_ERROR P.CreateEvent.1 = false)
    (hArm : ∀ j, j < T.NumberOfEntries → j ≠ IAm →
      EFI_ERROR (P.WaitForSecondaryToBeEnabled (T.ArmCpus j)) = false →
      EFI_ERROR (P.SetProcedureToSecondaryCore j
        (if WaitEvent = 0 then P.CreateEvent.2 else WaitEvent)) = false) :
    MpStartupAllAPs P T s false WaitEvent = some (EFI_SUCCESS,
        ⟨s.mMpProcessorInfo, s.mCpu,
         s.trace ++ (if WaitEvent = 0 then [Effect.CreateEvent P.CreateEvent.2] else [])
           ++ (enabledAPs P T IAm).map (fun h => Effect.SetProcedureToSecondaryCore h
                (if WaitEvent = 0 then P.CreateEvent.2 else WaitEvent))
           ++ [Effect.ArmGicSendSgiTo]
           ++ (if WaitEvent = 0 then [Effect.WaitForEvent P.CreateEvent.2] else [])⟩) ∧
      (∀ h, h ∈ enabledAPs P T IAm ↔ (h < T.NumberOfEntries ∧ h ≠ IAm ∧
        EFI_ERROR (P.WaitForSecondaryToBeEnabled (T.ArmCpus h)) = false)) := by
  refine ⟨?_, mem_enabledAPs P T IAm⟩
  obtain ⟨m, hm, hbit, hfilter⟩ := MpStartupAllAPs.checkLoop_enabledAPs P T IAm hN hIdle
  obtain ⟨j, hj1, hj2, hj3⟩ := hSome
  have hmj : m.testBit j = true := (hbit j).2 ((mem_enabledAPs P T IAm j).2 ⟨hj1, hj2, hj3⟩)
  have hm0 : m ≠ 0 := by
    intro h0
    rw [h0] at hmj
    simp at hmj
  have hloop := fun s0 => MpStartupAllAPs.allLoop_trace P m
    (if WaitEvent = 0 then P.CreateEvent.2 else WaitEvent) T.NumberOfEntries 0 s0 (by omega)
    (fun i _ _ hi => by
      obtain ⟨a, b, c⟩ := (mem_enabledAPs P T IAm i).1 ((hbit i).1 hi)
      exact hArm i a b c)
  rw [hfilter] at hloop
  by_cases hw : WaitEvent = 0
  · have hl := hloop (s.emit (.CreateEvent P.CreateEvent.2))
    simp only [hw, if_true] at hl
    simp only [MpState.emit] at hl
    simp [MpStartupAllAPs, MpStartupAllAPs.dispatchAll, hIAm, EFI_ERROR_SUCCESS, hm, hm0, hw,
      hCreate hw, hl, MpState.emit]
  · have hl := hloop s
    simp only [hw, if_false] at hl
    simp [MpStartupAllAPs, MpStartupAllAPs.dispatchAll, hIAm, EFI_ERROR_SUCCESS, hm, hm0, hw, hl,
      MpState.emit]

/-- C3 at a concrete input: `table4`, caller 0, cores 1 and 2 enabled, blocking call
(`WaitEvent` is NULL). Handles 1 and 2 are armed with the created event 7, then one
wake broadcast is sent, then event 7 is waited on once. -/
theorem MpStartupAllAPs_simultaneous_witness :
    (MpStartupAllAPs platform0 table4 state0 false 0 = some (EFI_SUCCESS,
        ⟨state0.mMpProcessorInfo, state0.mCpu,
         state0.trace
           ++ (if (0 : EFI_EVENT) = 0 then [Effect.CreateEvent platform0.CreateEvent.2] else [])
           ++ (enabledAPs platform0 table4 0).map (fun h => Effect.SetProcedureToSecondaryCore h
                (if (0 : EFI_EVENT) = 0 then platform0.CreateEvent.2 else 0))
           ++ [Effect.ArmGicSendSgiTo]
           ++ (if (0 : EFI_EVENT) = 0 then [Effect.WaitForEvent platform0.CreateEvent.2]
               else [])⟩) ∧
      (∀ h, h ∈ enabledAPs platform0 table4 0 ↔ (h < table4.NumberOfEntries ∧ h ≠ 0 ∧
        EFI_ERROR (platform0.WaitForSecondaryToBeEnabled (table4.ArmCpus h)) = false))) ∧
    (MpStartupAllAPs platform0 table4 state0 false 0).map (fun r => (r.1, r.2.trace))
      = some (EFI_SUCCESS,
          [.CreateEvent 7, .SetProcedureToSecondaryCore 1 7, .SetProcedureToSecondaryCore 2 7,
           .ArmGicSendSgiTo, .WaitForEvent 7]) ∧
    (MpStartupAllAPs platform0 table4 state0 false 9).map (fun r => (r.1, r.2.trace))
      = some (EFI_SUCCESS,
          [.SetProcedureToSecondaryCore 1 9, .SetProcedureToSecondaryCore 2 9,
           .ArmGicSendSgiTo]) :=
  ⟨MpStartupAllAPs_simultaneous platform0 table4 state0 0 0 (by decide) (by decide)
     (by decide) ⟨1, by decide, by decide, by decide⟩ (by decide) (by decide),
   by decide, by decide⟩

/-! ## `MpEnableDisableAP`: the mailbox -/

/-- The end of `MpEnableDisableAP` adds the CPU_ON call with the mailbox of the record
as entry point and changes nothing else. -/
theorem MpEnableDisableAP.cpuOn_eq (P : Platform) (ArmCpu : ARM_CORE_INFO)
    (ProcessorNumber : Nat) (s : MpState) :
    MpEnableDisableAP.cpuOn P ArmCpu ProcessorNumber s =
      (if P.PsciCpuOn ArmCpu (toUINTN P (s.mMpProcessorInfo ProcessorNumber).Mailbox)
            = PSCI_RET.SUCCESS ∨
          P.PsciCpuOn ArmCpu (toUINTN P (s.mMpProcessorInfo ProcessorNumber).Mailbox)
            = PSCI_RET.ALREADY_ON
        then EFI_SUCCESS else EFI_UNSUPPORTED,
       ⟨s.mMpProcessorInfo, s.mCpu, s.trace ++
         [Effect.CpuOn ArmCpu (toUINTN P (s.mMpProcessorInfo ProcessorNumber).Mailbox)]⟩) := by
  unfold MpEnableDisableAP.cpuOn
  simp only [MpState.emit]
  split <;> rfl

/-- When the mailbox setup returns from `MpEnableDisableAP`, it does so with an error
status. -/
theorem MpEnableDisableAP.setupMailbox_error (P : Platform) (ProcessorNumber : Nat)
    (s s1 : MpState) (Status : EFI_STATUS)
    (h : MpEnableDisableAP.setupMailbox P ProcessorNumber s = some (some Status, s1)) :
    EFI_ERROR Status = true := by
  unfold MpEnableDisableAP.setupMailbox at h
  simp only [MpEnableDisableAP.setAttributes] at h
  repeat' split at h
  all_goals simp_all

/-- C9 at the failing input: core 0 of `table4` enables handle 1, whose record has no
mailbox; `AllocatePages` succeeds with address 4096 and `SetMemoryAttributes` fails with
`EFI_DEVICE_ERROR`. The call returns that status, frees the region and issues no CPU_ON
call, but the `Mailbox` field of the record still holds 4096, not 0; a second call on the
same handle, now with working services, allocates nothing and issues CPU_ON with the
freed region as entry point. -/
theorem MpEnableDisableAP_keeps_freed_mailbox :
    (state0.mMpProcessorInfo 1).Mailbox = 0 ∧
    (MpEnableDisableAP platformNoAttributes table4 state0 1 true).map
        (fun r => (r.1, r.2.trace, (r.2.mMpProcessorInfo 1).Mailbox))
      = some (EFI_DEVICE_ERROR,
          [.AllocatePages 4096, .CopyMem 4096 65536 96,
           .Write32 (4096 + 72) (4096 + 2048), .Write32 (4096 + 80) (4096 + 2048),
           .Write64 (4096 + 88) (4096 + 2056),
           .LocateProtocol, .SetMemoryAttributes 4096 4096, .FreePages 4096],
          4096) ∧
    ((MpEnableDisableAP platformNoAttributes table4 state0 1 true).bind
        (fun r => MpEnableDisableAP platform0 table4 ⟨r.2.mMpProcessorInfo, r.2.mCpu, []⟩
          1 true)).map
        (fun r => (r.1, r.2.trace, (r.2.mMpProcessorInfo 1).Mailbox))
      = some (EFI_SUCCESS, [.CpuOn ⟨0, 1⟩ 4096], 4096) := by
  decide

/-- C10. For a valid handle other than the caller's whose record already has a mailbox,
`MpEnableDisableAP` does nothing but the CPU_ON call, with that mailbox as entry point:
no page allocation, no stub copy, no patching, no attribute change, and every record,
so the `Mailbox` field, is unchanged. Moreover, when the state is the one left by a first
call on the same handle that returned `EFI_SUCCESS`, the last thing that first call did
was the CPU_ON call with the same entry point. -/
theorem MpEnableDisableAP_mailbox_reused (P : Platform) (T : ARM_PROCESSOR_TABLE)
    (s : MpState) (ProcessorNumber : Nat) (EnableAP : Bool) (IAm : Nat)
    (hPN : ProcessorNumber < T.NumberOfEntries)
    (hIAm : MpWhoAmI P T false = some (EFI_SUCCESS, some IAm))
    (hne : IAm ≠ ProcessorNumber)
    (hMb : (s.mMpProcessorInfo ProcessorNumber).Mailbox ≠ 0) :
    MpEnableDisableAP P T s ProcessorNumber EnableAP = some
        (if P.PsciCpuOn (T.ArmCpus ProcessorNumber)
              (toUINTN P (s.mMpProcessorInfo ProcessorNumber).Mailbox) = PSCI_RET.SUCCESS ∨
            P.PsciCpuOn (T.ArmCpus ProcessorNumber)
              (toUINTN P (s.mMpProcessorInfo ProcessorNumber).Mailbox) = PSCI_RET.ALREADY_ON
          then EFI_SUCCESS else EFI_UNSUPPORTED,
         ⟨s.mMpProcessorInfo, s.mCpu, s.trace ++
           [Effect.CpuOn (T.ArmCpus ProcessorNumber)
             (toUINTN P (s.mMpProcessorInfo ProcessorNumber).Mailbox)]⟩) ∧
      ∀ (s0 : MpState) (EnableAP0 : Bool),
        MpEnableDisableAP P T s0 ProcessorNumber EnableAP0 = some (EFI_SUCCESS, s) →
        s.trace.getLast? = some (Effect.CpuOn (T.ArmCpus ProcessorNumber)
          (toUINTN P (s.mMpProcessorInfo ProcessorNumber).Mailbox)) := by
  have hgt : ¬ ProcessorNumber > T.NumberOfEntries := by omega
  constructor
  · simp only [MpEnableDisableAP, hgt, if_false, hIAm, EFI_ERROR_SUCCESS, hne, hMb,
      Bool.false_eq_true, MpEnableDisableAP.cpuOn_eq]
  · intro s0 e0 h0
    simp only [MpEnableDisableAP, hgt, if_false, hIAm, EFI_ERROR_SUCCESS, hne,
      Bool.false_eq_true] at h0
    split at h0
    · split at h0
      · cases h0
      · rename_i Status s1 hs
        have he := MpEnableDisableAP.setupMailbox_error P ProcessorNumber s0 s1 Status hs
        simp only [Option.some.injEq, Prod.mk.injEq] at h0
        rw [h0.1] at he
        cases he
      · rw [MpEnableDisableAP.cpuOn_eq] at h0
        simp only [Option.some.injEq, Prod.mk.injEq] at h0
        rw [← h0.2]
        simp
    · rw [MpEnableDisableAP.cpuOn_eq] at h0
      simp only [Option.some.injEq, Prod.mk.injEq] at h0
      rw [← h0.2]
      simp

/-- C10 at a concrete input: core 0 of `table4` enables handle 1 a second time, in the
state `state1` left by the first call. The second call only issues CPU_ON with the
mailbox 4096 of the first call. -/
theorem MpEnableDisableAP_mailbox_reused_witness :
    (MpEnableDisableAP platform0 table4 state0 1 true).map (fun r => (r.1, r.2.trace))
      = some (EFI_SUCCESS,
          [.AllocatePages 4096, .CopyMem 4096 65536 96,
           .Write32 (4096 + 72) (4096 + 2048), .Write32 (4096 + 80) (4096 + 2048),
           .Write64 (4096 + 88) (4096 + 2056),
           .LocateProtocol, .SetMemoryAttributes 4096 4096, .CpuOn ⟨0, 1⟩ 4096]) ∧
    MpEnableDisableAP platform0 table4 state0 1 true = some (EFI_SUCCESS, state1) ∧
    (state1.mMpProcessorInfo 1).Mailbox ≠ 0 ∧
    (MpEnableDisableAP platform0 table4 state1 1 true = some
        (if platform0.PsciCpuOn (table4.ArmCpus 1)
              (toUINTN platform0 (state1.mMpProcessorInfo 1).Mailbox) = PSCI_RET.SUCCESS ∨
            platform0.PsciCpuOn (table4.ArmCpus 1)
              (toUINTN platform0 (state1.mMpProcessorInfo 1).Mailbox) = PSCI_RET.ALREADY_ON
          then EFI_SUCCESS else EFI_UNSUPPORTED,
         ⟨state1.mMpProcessorInfo, state1.mCpu, state1.trace ++
           [Effect.CpuOn (table4.ArmCpus 1)
             (toUINTN platform0 (state1.mMpProcessorInfo 1).Mailbox)]⟩) ∧
      ∀ (s0 : MpState) (EnableAP0 : Bool),
        MpEnableDisableAP platform0 table4 s0 1 EnableAP0 = some (EFI_SUCCESS, state1) →
        state1.trace.getLast? = some (Effect.CpuOn (table4.ArmCpus 1)
          (toUINTN platform0 (state1.mMpProcessorInfo 1).Mailbox))) ∧
    (MpEnableDisableAP platform0 table4 state1 1 true).map
        (fun r => (r.1, r.2.trace.drop state1.trace.length))
      = some (EFI_SUCCESS, [.CpuOn ⟨0, 1⟩ 4096]) :=
  ⟨by decide, rfl, by decide,
   MpEnableDisableAP_mailbox_reused platform0 table4 state1 1 true 0 (by decide) (by decide)
     (by decide) (by decide),
   by decide⟩

/-! ## `MpEnableDisableAP`: the parameter `EnableAP` -/

/-- C11 on the code. `MpEnableDisableAP` never reads `EnableAP`: a call with `FALSE` is
the call with `TRUE`. At the failing input (core 0 of `table4` disables handle 1, whose
record has no mailbox) the call allocates and sets up a mailbox, stores it in the record
and issues CPU_ON for core 1. -/
theorem MpEnableDisableAP_disable_powers_on (P : Platform) (T : ARM_PROCESSOR_TABLE)
    (s : MpState) (ProcessorNumber : Nat) :
    MpEnableDisableAP P T s ProcessorNumber false = MpEnableDisableAP P T s ProcessorNumber true ∧
    (state0.mMpProcessorInfo 1).Mailbox = 0 ∧
    (MpEnableDisableAP platform0 table4 state0 1 false).map
        (fun r => (r.1, r.2.trace, (r.2.mMpProcessorInfo 1).Mailbox))
      = some (EFI_SUCCESS,
          [.AllocatePages 4096, .CopyMem 4096 65536 96,
           .Write32 (4096 + 72) (4096 + 2048), .Write32 (4096 + 80) (4096 + 2048),
           .Write64 (4096 + 88) (4096 + 2056),
           .LocateProtocol, .SetMemoryAttributes 4096 4096, .CpuOn ⟨0, 1⟩ 4096],
          4096) :=
  ⟨rfl, by decide, by decide⟩

/-! ## `MpGetNumberOfProcessors` -/

/-- The loop of `MpGetNumberOfProcessors` adds to `Enabled` at most one per iteration. -/
theorem MpGetNumberOfProcessors.loop_bounds (P : Platform) (T : ARM_PROCESSOR_TABLE) :
    ∀ (n Index Enabled : Nat),
      Enabled ≤ MpGetNumberOfProcessors.loop P T n Index Enabled ∧
      MpGetNumberOfProcessors.loop P T n Index Enabled ≤ Enabled + n := by
  intro n
  induction n with
  | zero => intro Index Enabled; simp [MpGetNumberOfProcessors.loop]
  | succ n ih =>
    intro Index Enabled
    unfold MpGetNumberOfProcessors.loop
    split
    · have := ih (Index + 1) (Enabled + 1)
      omega
    · have := ih (Index + 1) Enabled
      omega

/-- The loop of `MpGetNumberOfProcessors` adds at least one when an entry of the scanned
range answers ON. -/
theorem MpGetNumberOfProcessors.loop_pos (P : Platform) (T : ARM_PROCESSOR_TABLE) :
    ∀ (n Index Enabled j : Nat), Index ≤ j → j < Index + n →
      P.PsciAffinityInfo (T.ArmCpus j) = PSCI_AFFINITY_INFO.ON →
      Enabled + 1 ≤ MpGetNumberOfProcessors.loop P T n Index Enabled := by
  intro n
  induction n with
  | zero => intro Index Enabled j h1 h2; omega
  | succ n ih =>
    intro Index Enabled j h1 h2 h3
    unfold MpGetNumberOfProcessors.loop
    split
    · exact (MpGetNumberOfProcessors.loop_bounds P T n (Index + 1) (Enabled + 1)).1
    · rename_i hoff
      have hne : j ≠ Index := by
        intro he
        subst he
        exact hoff h3
      exact ih (Index + 1) Enabled j (by omega) (by omega) h3

/-- C12 at the failing input: on `table4` cores 0 and 2 answer ON, core 1 answers
ON_PENDING and core 3 OFF. Three handles are on in the sense of `MpGetProcessorInfo`
(which sets `PROCESSOR_ENABLED_BIT` for handle 1), but `MpGetNumberOfProcessors` returns 2
as `NumberOfEnabledProcessors`. -/
theorem MpGetNumberOfProcessors_skips_on_pending :
    ((List.range table4.NumberOfEntries).filter (fun h =>
        decide (platformPending.PsciAffinityInfo (table4.ArmCpus h) = PSCI_AFFINITY_INFO.ON ∨
          platformPending.PsciAffinityInfo (table4.ArmCpus h)
            = PSCI_AFFINITY_INFO.ON_PENDING))).length = 3 ∧
    MpGetNumberOfProcessors platformPending table4 false false
      = some (EFI_SUCCESS, some 4, some 2) ∧
    (MpGetProcessorInfo platformPending table4 1 false).map
        (fun r => (r.1, r.2.map (fun b => b.StatusFlag &&& platformPending.PROCESSOR_ENABLED_BIT)))
      = some (EFI_SUCCESS, some 2) := by
  decide

/-- C13. When the executing core is an entry of the table and its power query answers ON,
`MpGetNumberOfProcessors` returns `EFI_SUCCESS` in every build (the ASSERT holds), stores
`NumberOfEntries` as `NumberOfProcessors`, and a `NumberOfEnabledProcessors` between 1 and
`NumberOfEntries`. -/
theorem MpGetNumberOfProcessors_bounds (P : Platform) (T : ARM_PROCESSOR_TABLE)
    (hCaller : ∃ i, i < T.NumberOfEntries ∧
      T.ArmCpus i = ⟨P.GET_CLUSTER_ID P.ArmReadMpidr, P.GET_CORE_ID P.ArmReadMpidr⟩ ∧
      P.PsciAffinityInfo (T.ArmCpus i) = PSCI_AFFINITY_INFO.ON) :
    ∃ Enabled, MpGetNumberOfProcessors P T false false
        = some (EFI_SUCCESS, some T.NumberOfEntries, some Enabled) ∧
      1 ≤ Enabled ∧ Enabled ≤ T.NumberOfEntries := by
  obtain ⟨i, hi, _, hon⟩ := hCaller
  have hpos := MpGetNumberOfProcessors.loop_pos P T T.NumberOfEntries 0 0 i (Nat.zero_le _)
    (by omega) hon
  have hle := (MpGetNumberOfProcessors.loop_bounds P T T.NumberOfEntries 0 0).2
  refine ⟨MpGetNumberOfProcessors.loop P T T.NumberOfEntries 0 0, ?_, by omega, by omega⟩
  have hgt : MpGetNumberOfProcessors.loop P T T.NumberOfEntries 0 0 > 0 := by omega
  simp [MpGetNumberOfProcessors, ASSERT, hgt]

/-- C13 at a concrete input: `table4` on `platform0`, executed on core 0, which is ON
(as are cores 1 and 2): the counts are 4 and 3. -/
theorem MpGetNumberOfProcessors_bounds_witness :
    (∃ Enabled, MpGetNumberOfProcessors platform0 table4 false false
        = some (EFI_SUCCESS, some table4.NumberOfEntries, some Enabled) ∧
      1 ≤ Enabled ∧ Enabled ≤ table4.NumberOfEntries) ∧
    MpGetNumberOfProcessors platform0 table4 false false = some (EFI_SUCCESS, some 4, some 3) :=
  ⟨MpGetNumberOfProcessors_bounds platform0 table4 ⟨0, by decide, rfl, by decide⟩, by decide⟩

/-! ## `MpGetProcessorInfo` -/

/-- C14. For a handle `h < NumberOfEntries`, a non-NULL buffer and a caller in the table,
`MpGetProcessorInfo` returns `EFI_SUCCESS`; in the `StatusFlag` it stores, the health bit
is set, the BSP bit is set exactly when `h` is the handle of the caller, the enabled bit
is set exactly when the power query for entry `h` answers ON or ON_PENDING, and no other
bit is set. The three header constants are taken to be three different single bits. -/
theorem MpGetProcessorInfo_StatusFlag (P : Platform) (T : ARM_PROCESSOR_TABLE) (h IAm : Nat)
    (a b c : Nat)
    (hBsp : P.PROCESSOR_AS_BSP_BIT = 2 ^ a) (hEnabled : P.PROCESSOR_ENABLED_BIT = 2 ^ b)
    (hHealth : P.PROCESSOR_HEALTH_STATUS_BIT = 2 ^ c)
    (hab : a ≠ b) (hac : a ≠ c) (hbc : b ≠ c)
    (hh : h < T.NumberOfEntries)
    (hIAm : MpWhoAmI P T false = some (EFI_SUCCESS, some IAm)) :
    ∃ info, MpGetProcessorInfo P T h false = some (EFI_SUCCESS, some info) ∧
      info.StatusFlag &&& P.PROCESSOR_HEALTH_STATUS_BIT ≠ 0 ∧
      (info.StatusFlag &&& P.PROCESSOR_AS_BSP_BIT ≠ 0 ↔ h = IAm) ∧
      (info.StatusFlag &&& P.PROCESSOR_ENABLED_BIT ≠ 0 ↔
        (P.PsciAffinityInfo (T.ArmCpus h) = PSCI_AFFINITY_INFO.ON ∨
         P.PsciAffinityInfo (T.ArmCpus h) = PSCI_AFFINITY_INFO.ON_PENDING)) ∧
      (∀ k, info.StatusFlag.testBit k = true → k = a ∨ k = b ∨ k = c) := by
  have hgt : ¬ h > T.NumberOfEntries := by omega
  have hca : c ≠ a := fun e => hac e.symm
  have hcb : c ≠ b := fun e => hbc e.symm
  have hba : b ≠ a := fun e => hab e.symm
  refine ⟨_, by simp only [MpGetProcessorInfo, hgt, hIAm, EFI_ERROR_SUCCESS]; rfl, ?_⟩
  simp only [hBsp, hEnabled, hHealth, and_two_pow_ne_zero_iff]
  by_cases h1 : IAm = h <;>
    by_cases h2 : (P.PsciAffinityInfo (T.ArmCpus h) = PSCI_AFFINITY_INFO.ON ∨
      P.PsciAffinityInfo (T.ArmCpus h) = PSCI_AFFINITY_INFO.ON_PENDING)
  · refine ⟨?_, ?_, ?_, ?_⟩
    · simp [h1, h2, Nat.testBit_or, Nat.testBit_two_pow]
    · simp [h1, h2, Nat.testBit_or, Nat.testBit_two_pow]
    · simp [h1, h2, Nat.testBit_or, Nat.testBit_two_pow]
    · intro k
      simp only [h1, h2, if_true, Nat.testBit_or, Nat.testBit_two_pow, Bool.or_eq_true,
        decide_eq_true_eq]
      omega
  · refine ⟨?_, ?_, ?_, ?_⟩
    · simp [h1, h2, Nat.testBit_or, Nat.testBit_two_pow]
    · simp [h1, h2, Nat.testBit_or, Nat.testBit_two_pow]
    · simp [h1, h2, Nat.testBit_or, Nat.testBit_two_pow, hcb, hab]
    · intro k
      simp only [h1, h2, if_true, if_false, Nat.testBit_or, Nat.testBit_two_pow,
        Bool.or_eq_true, decide_eq_true_eq]
      omega
  · have h1' : ¬ h = IAm := fun e => h1 e.symm
    refine ⟨?_, ?_, ?_, ?_⟩
    · simp [h1, h2, Nat.testBit_or, Nat.testBit_two_pow]
    · simp [h1, h1', h2, Nat.testBit_or, Nat.testBit_two_pow, hca, hba]
    · simp [h1, h2, Nat.testBit_or, Nat.testBit_two_pow]
    · intro k
      simp only [h1, h2, if_true, if_false, Nat.testBit_or, Nat.testBit_two_pow,
        Bool.or_eq_true, decide_eq_true_eq]
      omega
  · have h1' : ¬ h = IAm := fun e => h1 e.symm
    refine ⟨?_, ?_, ?_, ?_⟩
    · simp [h1, h2, Nat.testBit_two_pow]
    · simp [h1, h1', h2, Nat.testBit_two_pow, hca]
    · simp [h1, h2, Nat.testBit_two_pow, hcb]
    · intro k
      simp only [h1, h2, if_false, Nat.testBit_two_pow, decide_eq_true_eq]
      omega

/-- C14 at a concrete input: core 0 of `table4` asks for handle 2 on `platform0`, where
the three bits are 1, 2 and 4 and core 2 is ON: the flag stored is 6, enabled and
healthy, not BSP. -/
theorem MpGetProcessorInfo_StatusFlag_witness :
    (∃ info, MpGetProcessorInfo platform0 table4 2 false = some (EFI_SUCCESS, some info) ∧
      info.StatusFlag &&& platform0.PROCESSOR_HEALTH_STATUS_BIT ≠ 0 ∧
      (info.StatusFlag &&& platform0.PROCESSOR_AS_BSP_BIT ≠ 0 ↔ 2 = 0) ∧
      (info.StatusFlag &&& platform0.PROCESSOR_ENABLED_BIT ≠ 0 ↔
        (platform0.PsciAffinityInfo (table4.ArmCpus 2) = PSCI_AFFINITY_INFO.ON ∨
         platform0.PsciAffinityInfo (table4.ArmCpus 2) = PSCI_AFFINITY_INFO.ON_PENDING)) ∧
      (∀ k, info.StatusFlag.testBit k = true → k = 0 ∨ k = 1 ∨ k = 2)) ∧
    MpGetProcessorInfo platform0 table4 2 false
      = some (EFI_SUCCESS, some ⟨2, 6, ⟨0, 2, 0⟩⟩) :=
  ⟨MpGetProcessorInfo_StatusFlag platform0 table4 2 0 0 1 2 rfl rfl rfl (by decide)
     (by decide) (by decide) (by decide) (by decide),
   by decide⟩

/-- C15 at the failing input. `table4` has `N = 4` entries and `ProcessorNumber = 4` is
the one-past-end value: the test `ProcessorNumber > NumberOfEntries` lets it through and
the call returns `EFI_SUCCESS` after storing in the buffer a description of what lies
behind the table. -/
theorem MpGetProcessorInfo_one_past_end :
    4 ≥ table4.NumberOfEntries ∧
    MpGetProcessorInfo platform0 table4 4 false
      = some (EFI_SUCCESS, some ⟨4, 4, ⟨0, 4, 0⟩⟩) := by
  decide

/-! ## `MpStartupAllAPs` and `MpStartupThisAP`: what the code does against its header -/

/-- C16 at the failing input: `MpStartupAllAPs` is executed on core 1 of `table4`, a
secondary core (simultaneous mode, `WaitEvent` is NULL). `MpWhoAmI` succeeds with handle
1 and the call goes on: it arms handles 0 (the boot core) and 2, sends the wake
interrupt, waits and returns `EFI_SUCCESS`, not `EFI_DEVICE_ERROR`. -/
theorem MpStartupAllAPs_from_AP :
    MpWhoAmI platformOnAP table4 false = some (EFI_SUCCESS, some 1) ∧
    (MpStartupAllAPs platformOnAP table4 state0 false 0).map (fun r => (r.1, r.2.trace))
      = some (EFI_SUCCESS,
          [.CreateEvent 7, .SetProcedureToSecondaryCore 0 7, .SetProcedureToSecondaryCore 2 7,
           .ArmGicSendSgiTo, .WaitForEvent 7]) := by
  decide

/-- C17 at the failing input: core 0 of `table4` starts handle 1 in blocking mode
(`WaitEvent` is NULL) on `platform0`, where `CreateEvent` stores event 7. The event 7 is
stored in the record of handle 1, waited on and closed, but the event handed to
`SetProcedureToSecondaryCore` is `WaitEvent`, that is NULL. In non-blocking mode
(`WaitEvent` is 9) event 9 is handed over and nothing is waited on or closed. -/
theorem MpStartupThisAP_hands_over_WaitEvent :
    (MpStartupThisAP platform0 table4 state0 1 0).map
        (fun r => (r.1, r.2.trace, (r.2.mMpProcessorInfo 1).CompletionEvent))
      = some (EFI_SUCCESS,
          [.CreateEvent 7, .SetProcedureToSecondaryCore 1 0, .ArmGicSendSgiTo,
           .WaitForEvent 7, .CloseEvent 7],
          7) ∧
    (MpStartupThisAP platform0 table4 state0 1 9).map
        (fun r => (r.1, r.2.trace, (r.2.mMpProcessorInfo 1).CompletionEvent))
      = some (EFI_SUCCESS, [.SetProcedureToSecondaryCore 1 9, .ArmGicSendSgiTo], 9) := by
  decide

/-- C18 at the failing input: core 0 of `table4` starts handle 3, a valid handle whose
core is not enabled. The call arms nothing and sends no interrupt, but the status it
returns is `EFI_DEVICE_ERROR`, not `EFI_INVALID_PARAMETER`. -/
theorem MpStartupThisAP_disabled_AP :
    3 < table4.NumberOfEntries ∧
    MpWhoAmI platform0 table4 false = some (EFI_SUCCESS, some 0) ∧
    EFI_ERROR (platform0.WaitForSecondaryToBeEnabled (table4.ArmCpus 3)) = true ∧
    (MpStartupThisAP platform0 table4 state0 3 0).map (fun r => (r.1, r.2.trace))
      = some (EFI_DEVICE_ERROR, []) := by
  decide

/-- C19 at the failing input: core 0 of `table4` calls `MpStartupAllAPs` with
`SingleThread` and a non-NULL `WaitEvent` (event 9). The call reaches dispatch and waits
on the completion event 7 after arming each of the handles 1 and 2; only then does it
signal event 9 and return. -/
theorem MpStartupAllAPs_singleThread_waits :
    (MpStartupAllAPs platform0 table4 state0 true 9).map (fun r => (r.1, r.2.trace))
      = some (EFI_SUCCESS,
          [.CreateEvent 7,
           .SetProcedureToSecondaryCore 1 7, .ArmGicSendSgiTo, .WaitForEvent 7,
           .SetProcedureToSecondaryCore 2 7, .ArmGicSendSgiTo, .WaitForEvent 7,
           .CloseEvent 7, .SignalEvent 9]) := by
  decide

/-! ## `MpStartupAllAPs`: who is armed -/

/-- C20 as stated fails on 33 entries. On `platformCore32` (`1 << 32` is `1`) core 0 of
`table33` calls `MpStartupAllAPs` with handle 32 the only enabled one: bit 0 of the mask
is set for it, and the call arms handle 0, the caller's own, besides handle 32. On
`platformAArch32` (`1 << 32` is `0`) with handles 1 and 32 enabled the call arms handle 1
only and returns `EFI_SUCCESS`. -/
theorem MpStartupAllAPs_mask_33_entries :
    (MpStartupAllAPs platformCore32 table33 state0 false 0).map
        (fun r => (r.1, armedHandles r.2.trace)) = some (EFI_SUCCESS, [0, 32]) ∧
    ¬ ArmsExactlyTheEnabled platformCore32 table33 state0 false 0 ∧
    (MpStartupAllAPs platformAArch32 table33 state0 true 0).map
        (fun r => (r.1, armedHandles r.2.trace)) = some (EFI_SUCCESS, [1]) ∧
    ¬ ArmsExactlyTheEnabled platformAArch32 table33 state0 true 0 := by
  refine ⟨by decide, ?_, by decide, ?_⟩
  · intro hc
    have h0 := hc
      ⟨state0.mMpProcessorInfo, state0.mCpu,
       [.CreateEvent 7, .SetProcedureToSecondaryCore 0 7, .SetProcedureToSecondaryCore 32 7,
        .ArmGicSendSgiTo, .WaitForEvent 7]⟩ 0 (by decide) rfl 0
    revert h0
    decide
  · intro hc
    have h0 := hc
      ⟨state0.mMpProcessorInfo, state0.mCpu,
       [.CreateEvent 7, .SetProcedureToSecondaryCore 1 7, .ArmGicSendSgiTo, .WaitForEvent 7,
        .CloseEvent 7]⟩ 0 (by decide) rfl 32
    revert h0
    decide

/-- The only status with which the check loop returns from the function is
`EFI_NOT_READY`. -/
theorem MpStartupAllAPs.checkLoop_error (P : Platform) (T : ARM_PROCESSOR_TABLE) (IAm : Nat) :
    ∀ (n Index m : Nat) (Status : EFI_STATUS),
      MpStartupAllAPs.checkLoop P T IAm n Index m = .error Status → Status = EFI_NOT_READY := by
  intro n
  induction n with
  | zero => intro Index m Status h; simp [MpStartupAllAPs.checkLoop] at h
  | succ n ih =>
    intro Index m Status h
    unfold MpStartupAllAPs.checkLoop at h
    split at h
    · split at h
      · exact ih _ _ _ h
      · split at h
        · cases h
          rfl
        · exact ih _ _ _ h
    · exact ih _ _ _ h

/-- Within 32 entries the `SingleThread` loop either returns from the function with an
error status, or runs to its end and adds one turn for each scanned handle whose bit is
set. -/
theorem MpStartupAllAPs.singleThreadLoop_result (P : Platform) (m : Nat) (ev : EFI_EVENT) :
    ∀ (n Index : Nat) (s : MpState), Index + n ≤ 32 →
      (∃ Status s2, MpStartupAllAPs.singleThreadLoop P m ev n Index s = (some Status, s2) ∧
        EFI_ERROR Status = true) ∨
      MpStartupAllAPs.singleThreadLoop P m ev n Index s =
        (none, ⟨s.mMpProcessorInfo, s.mCpu, s.trace ++
          ((List.range' Index n).filter (fun i => m.testBit i)).flatMap
            (singleThreadTurn ev)⟩) := by
  intro n
  induction n with
  | zero => intro Index s _; right; simp [MpStartupAllAPs.singleThreadLoop]
  | succ n ih =>
    intro Index s hI
    have h32 : Index < 32 := by omega
    unfold MpStartupAllAPs.singleThreadLoop
    rw [Shl1_of_lt P Index h32, List.range'_succ]
    cases hb : m.testBit Index with
    | true =>
      have hne : m &&& 2 ^ Index ≠ 0 := (and_two_pow_ne_zero_iff m Index).2 hb
      cases ha : EFI_ERROR (P.SetProcedureToSecondaryCore Index ev) with
      | true =>
        left
        refine ⟨P.SetProcedureToSecondaryCore Index ev,
          s.emit (.SetProcedureToSecondaryCore Index ev), ?_, ha⟩
        simp only [hne, ne_eq, not_false_eq_true, if_true, ha]
      | false =>
        simp only [hne, ne_eq, not_false_eq_true, if_true, ha, Bool.false_eq_true, if_false]
        rcases ih (Index + 1)
          (((s.emit (.SetProcedureToSecondaryCore Index ev)).emit .ArmGicSendSgiTo).emit
            (.WaitForEvent ev)) (by omega) with ⟨St, s2, h1, h2⟩ | h1
        · left
          exact ⟨St, s2, h1, h2⟩
        · right
          rw [h1]
          simp [MpState.emit, List.filter_cons, hb, singleThreadTurn]
    | false =>
      have hz : ¬ (m &&& 2 ^ Index ≠ 0) := by
        rw [and_two_pow_ne_zero_iff, hb]
        simp
      simp only [hz, if_false]
      rcases ih (Index + 1) s (by omega) with ⟨St, s2, h1, h2⟩ | h1
      · left
        exact ⟨St, s2, h1, h2⟩
      · right
        rw [h1]
        simp [List.filter_cons, hb]

/-- Within 32 entries the loop of the simultaneous branch either returns from the
function with an error status, or runs to its end and arms each scanned handle whose bit
is set. -/
theorem MpStartupAllAPs.allLoop_result (P : Platform) (m : Nat) (ev : EFI_EVENT) :
    ∀ (n Index : Nat) (s : MpState), Index + n ≤ 32 →
      (∃ Status s2, MpStartupAllAPs.allLoop P m ev n Index s = (some Status, s2) ∧
        EFI_ERROR Status = true) ∨
      MpStartupAllAPs.allLoop P m ev n Index s =
        (none, ⟨s.mMpProcessorInfo, s.mCpu, s.trace ++
          ((List.range' Index n).filter (fun i => m.testBit i)).map
            (fun i => Effect.SetProcedureToSecondaryCore i ev)⟩) := by
  intro n
  induction n with
  | zero => intro Index s _; right; simp [MpStartupAllAPs.allLoop]
  | succ n ih =>
    intro Index s hI
    have h32 : Index < 32 := by omega
    unfold MpStartupAllAPs.allLoop
    rw [Shl1_of_lt P Index h32, List.range'_succ]
    cases hb : m.testBit Index with
    | true =>
      have hne : m &&& 2 ^ Index ≠ 0 := (and_two_pow_ne_zero_iff m Index).2 hb
      cases ha : EFI_ERROR (P.SetProcedureToSecondaryCore Index ev) with
      | true =>
        left
        refine ⟨P.SetProcedureToSecondaryCore Index ev,
          s.emit (.SetProcedureToSecondaryCore Index ev), ?_, ha⟩
        simp only [hne, ne_eq, not_false_eq_true, if_true, ha]
      | false =>
        simp only [hne, ne_eq, not_false_eq_true, if_true, ha, Bool.false_eq_true, if_false]
        rcases ih (Index + 1) (s.emit (.SetProcedureToSecondaryCore Index ev)) (by omega)
          with ⟨St, s2, h1, h2⟩ | h1
        · left
          exact ⟨St, s2, h1, h2⟩
        · right
          rw [h1]
          simp [MpState.emit, List.filter_cons, hb]
    | false =>
      have hz : ¬ (m &&& 2 ^ Index ≠ 0) := by
        rw [and_two_pow_ne_zero_iff, hb]
        simp
      simp only [hz, if_false]
      rcases ih (Index + 1) s (by omega) with ⟨St, s2, h1, h2⟩ | h1
      · left
        exact ⟨St, s2, h1, h2⟩
      · right
        rw [h1]
        simp [List.filter_cons, hb]

/-- The handles armed by a sequence of `SingleThread` turns are the handles of the
turns. -/
theorem armedHandles_flatMap_singleThreadTurn (ev : EFI_EVENT) (l : List Nat) :
    armedHandles (l.flatMap (singleThreadTurn ev)) = l := by
  induction l with
  | nil => rfl
  | cons a l ih =>
    simp only [armedHandles] at ih
    simp [armedHandles, singleThreadTurn, List.filterMap_cons, armedHandle,
      List.filterMap_append, ih]

/-- The handles armed by a sequence of calls of `SetProcedureToSecondaryCore` are the
handles of the calls. -/
theorem armedHandles_map_SetProcedure (ev : EFI_EVENT) (l : List Nat) :
    armedHandles (l.map (fun i => Effect.SetProcedureToSecondaryCore i ev)) = l := by
  induction l with
  | nil => rfl
  | cons a l ih =>
    simp only [armedHandles] at ih
    simp [armedHandles, List.filterMap_cons, armedHandle, ih]

/-- The handles armed by two sequences of actions, one after the other. -/
theorem armedHandles_append (t u : List Effect) :
    armedHandles (t ++ u) = armedHandles t ++ armedHandles u := by
  simp [armedHandles, List.filterMap_append]

/-- The handles armed by a sequence of actions, from those armed by its tail. -/
theorem armedHandles_cons (e : Effect) (t : List Effect) :
    armedHandles (e :: t) = (armedHandle e).toList ++ armedHandles t := by
  cases h : armedHandle e <;> simp [armedHandles, List.filterMap_cons, h]

/-- No action, no handle armed. -/
theorem armedHandles_nil : armedHandles [] = [] := rfl

/-- A handle occurs once in `enabledAPs` when it is a member, and not at all
otherwise. -/
theorem count_enabledAPs (P : Platform) (T : ARM_PROCESSOR_TABLE) (IAm h : Nat) :
    (enabledAPs P T IAm).count h = if h ∈ enabledAPs P T IAm then 1 else 0 := by
  have hnd : (enabledAPs P T IAm).Nodup :=
    (enabledAPs_pairwise P T IAm).imp (fun hlt => Nat.ne_of_lt hlt)
  by_cases hm : h ∈ enabledAPs P T IAm
  · rw [if_pos hm]
    exact List.count_eq_one_of_mem hnd hm
  · rw [if_neg hm]
    exact List.count_eq_zero_of_not_mem hm

/-- C20, amended to at most 32 entries. In either mode, whenever `MpStartupAllAPs`
returns `EFI_SUCCESS`, each handle other than the caller's that is enabled and not busy
has been armed exactly once by the call, and no other handle, in particular the
caller's, has been armed. -/
theorem MpStartupAllAPs_arms_enabled (P : Platform) (T : ARM_PROCESSOR_TABLE) (s : MpState)
    (SingleThread : Bool) (WaitEvent : EFI_EVENT) (hN : T.NumberOfEntries ≤ 32) :
    ArmsExactlyTheEnabled P T s SingleThread WaitEvent := by
  intro s' IAm hIAm hRet h
  cases hc : MpStartupAllAPs.checkLoop P T IAm T.NumberOfEntries 0 0 with
  | error e =>
    have he := MpStartupAllAPs.checkLoop_error P T IAm _ _ _ _ hc
    subst he
    simp [MpStartupAllAPs, hIAm, hc, EFI_ERROR_SUCCESS] at hRet
  | ok m =>
    have hIdle : ∀ j, j < T.NumberOfEntries → j ≠ IAm →
        EFI_ERROR (P.WaitForSecondaryToBeEnabled (T.ArmCpus j)) = false →
        P.IsSecondaryCoreBusy j = false := by
      intro j h1 h2 h3
      cases hb : P.IsSecondaryCoreBusy j with
      | false => rfl
      | true =>
        have hnr := MpStartupAllAPs.checkLoop_not_ready P T IAm T.NumberOfEntries 0 0 j
          (Nat.zero_le _) (by omega) h2 h3 hb
        rw [hc] at hnr
        cases hnr
    obtain ⟨m', hm', _, hfilter⟩ := MpStartupAllAPs.checkLoop_enabledAPs P T IAm hN hIdle
    rw [hc] at hm'
    cases hm'
    have hcond : (h < T.NumberOfEntries ∧ h ≠ IAm ∧
        EFI_ERROR (P.WaitForSecondaryToBeEnabled (T.ArmCpus h)) = false ∧
        P.IsSecondaryCoreBusy h = false) ↔ h ∈ enabledAPs P T IAm := by
      rw [mem_enabledAPs]
      constructor
      · rintro ⟨h1, h2, h3, _⟩
        exact ⟨h1, h2, h3⟩
      · rintro ⟨h1, h2, h3⟩
        exact ⟨h1, h2, h3, hIdle h h1 h2 h3⟩
    suffices hk : armedHandles (s'.trace.drop s.trace.length) = enabledAPs P T IAm by
      rw [hk, count_enabledAPs]
      by_cases hm : h ∈ enabledAPs P T IAm
      · rw [if_pos hm, if_pos (hcond.2 hm)]
      · rw [if_neg hm, if_neg (fun hx => hm (hcond.1 hx))]
    simp only [MpStartupAllAPs, hIAm, hc, EFI_ERROR_SUCCESS, Bool.false_eq_true,
      if_false] at hRet
    by_cases hm0 : m = 0
    · simp [hm0] at hRet
    · simp only [hm0, if_false] at hRet
      cases SingleThread with
      | true =>
        simp only [if_true] at hRet
        cases hce : EFI_ERROR P.CreateEvent.1 with
        | true =>
          simp only [hce, if_true, Option.some.injEq, Prod.mk.injEq] at hRet
          rw [hRet.1, EFI_ERROR_SUCCESS] at hce
          cases hce
        | false =>
          simp only [hce, Bool.false_eq_true, if_false] at hRet
          rcases MpStartupAllAPs.singleThreadLoop_result P m P.CreateEvent.2
            T.NumberOfEntries 0 (s.emit (.CreateEvent P.CreateEvent.2)) (by omega)
            with ⟨St, s2, h1, h2⟩ | h1
          · rw [h1] at hRet
            simp only [Option.some.injEq, Prod.mk.injEq] at hRet
            rw [hRet.1, EFI_ERROR_SUCCESS] at h2
            cases h2
          · rw [h1, hfilter] at hRet
            simp only [Option.some.injEq, Prod.mk.injEq, true_and] at hRet
            rw [← hRet]
            by_cases hw : WaitEvent = 0 <;>
              simp [hw, MpState.emit, armedHandles_append, armedHandles_cons, armedHandles_nil,
                armedHandle, armedHandles_flatMap_singleThreadTurn]
      | false =>
        simp only [Bool.false_eq_true, if_false] at hRet
        by_cases hw : WaitEvent = 0
        · simp only [hw, if_true] at hRet
          cases hce : EFI_ERROR P.CreateEvent.1 with
          | true =>
            simp only [hce, if_true, Option.some.injEq, Prod.mk.injEq] at hRet
            rw [hRet.1, EFI_ERROR_SUCCESS] at hce
            cases hce
          | false =>
            simp only [hce, Bool.false_eq_true, if_false, MpStartupAllAPs.dispatchAll] at hRet
            rcases MpStartupAllAPs.allLoop_result P m P.CreateEvent.2
              T.NumberOfEntries 0 (s.emit (.CreateEvent P.CreateEvent.2)) (by omega)
              with ⟨St, s2, h1, h2⟩ | h1
            · rw [h1] at hRet
              simp only [Option.some.injEq, Prod.mk.injEq] at hRet
              rw [hRet.1, EFI_ERROR_SUCCESS] at h2
              cases h2
            · rw [h1, hfilter] at hRet
              simp only [if_true, Option.some.injEq, Prod.mk.injEq, true_and] at hRet
              rw [← hRet]
              simp [MpState.emit, armedHandles_append, armedHandles_cons, armedHandles_nil,
                armedHandle, armedHandles_map_SetProcedure]
        · simp only [hw, if_false, MpStartupAllAPs.dispatchAll] at hRet
          rcases MpStartupAllAPs.allLoop_result P m WaitEvent
            T.NumberOfEntries 0 s (by omega) with ⟨St, s2, h1, h2⟩ | h1
          · rw [h1] at hRet
            simp only [Option.some.injEq, Prod.mk.injEq] at hRet
            rw [hRet.1, EFI_ERROR_SUCCESS] at h2
            cases h2
          · rw [h1, hfilter] at hRet
            simp only [Option.some.injEq, Prod.mk.injEq, true_and] at hRet
            rw [← hRet]
            simp [MpState.emit, armedHandles_append, armedHandles_cons, armedHandles_nil,
              armedHandle, armedHandles_map_SetProcedure]

/-- C20 amended, at a concrete input: core 0 of `table4` (4 entries, cores 1 and 2
enabled, none busy) in sequential mode; the call returns `EFI_SUCCESS` and the handles
it arms are 1 and 2, once each. -/
theorem MpStartupAllAPs_arms_enabled_witness :
    table4.NumberOfEntries ≤ 32 ∧
    ArmsExactlyTheEnabled platform0 table4 state0 true 0 ∧
    MpWhoAmI platform0 table4 false = some (EFI_SUCCESS, some 0) ∧
    (MpStartupAllAPs platform0 table4 state0 true 0).map
        (fun r => (r.1, armedHandles (r.2.trace.drop state0.trace.length)))
      = some (EFI_SUCCESS, [1, 2]) :=
  ⟨by decide, MpStartupAllAPs_arms_enabled platform0 table4 state0 true 0 (by decide),
   by decide, by decide⟩

/-! ## `MpEnableDisableAP`: the patched words -/

/-- C21 at the failing input: core 0 of `table4` enables handle 1, whose record has no
mailbox, and `AllocatePages` returns `M = 2 ^ 32`. The three words are written at
`M + 72`, `M + 80` and `M + 88`, the offsets of the variables from `MailboxCodeStart`,
and the jump-address word holds `M + 2056`, all as claimed; but the stack word and the
processor-id word are stored as `UINT32` and hold 2048, the low 32 bits of `M + 2048`,
not `M + 2048`. -/
theorem MpEnableDisableAP_patch_truncates :
    platformHighMemory.AllocatePages.2 = 2 ^ 32 ∧
    (MpEnableDisableAP platformHighMemory table4 state0 1 true).map
        (fun r => (r.1, r.2.trace, (r.2.mMpProcessorInfo 1).Mailbox))
      = some (EFI_SUCCESS,
          [.AllocatePages 4294967296, .CopyMem 4294967296 65536 96,
           .Write32 (4294967296 + 72) 2048, .Write32 (4294967296 + 80) 2048,
           .Write64 (4294967296 + 88) (4294967296 + 2056),
           .LocateProtocol, .SetMemoryAttributes 4294967296 4096,
           .CpuOn ⟨0, 1⟩ 4294967296],
          4294967296) ∧
    (2048 : Nat) ≠ platformHighMemory.AllocatePages.2
      + platformHighMemory.ACPI_ARM_MP_MAILBOX_FW_SIZE ∧
    (2048 : Nat) ≠ platformHighMemory.AllocatePages.2
      + platformHighMemory.ACPI_ARM_MP_MAILBOX_CPU_ID_OFFSET := by
  decide

end ArmMpServices
